import Mathlib

/-!
# AscendKernelRuntime: a shallow embedding of ascend_kernel_runtime.cc

The member functions of the C++ class are translated into state-passing Lean
functions over an explicit record of the object's fields.  Calls that leave the
translation unit (driver, collective library, model runner, profiling, task
generator, allocators of the base class) are appended to a trace and answered by
an arbitrary, history-dependent oracle, so a statement quantified over the oracle
covers every combination of results those calls can report.  A C++ exception is an
outcome of its own that keeps the state reached when it was thrown.
-/

namespace AscendKernelRuntime

/-- Device pointers and handles; the value 0 stands for nullptr. -/
abbrev Ptr := Nat

/-- The constant ASCEND_MEM_SIZE of the source. -/
def ASCEND_MEM_SIZE : Nat := 20

/-- The constant ASCEND_MEM_SIZE_BYTE of the source: ASCEND_MEM_SIZE shifted left by 30, in 64 bits. -/
def ASCEND_MEM_SIZE_BYTE : Nat := (ASCEND_MEM_SIZE * 2 ^ 30) % 2 ^ 64

/-- The constant PRAMATER_OUTPUT_INDEX of the source. -/
def PRAMATER_OUTPUT_INDEX : Nat := 0

/-- An operator node of the execution order, seen through the accessors the source uses. -/
structure CNode where
  fullname_with_scope : List Char
  output_num : Nat
deriving DecidableEq

/-- An entry of the graph's input list: whether it is a Parameter, and its name. -/
structure AnfNode where
  is_parameter : Bool
  fullname_with_scope : List Char
deriving DecidableEq

/-- A kernel graph object.  The field addr is the address of the object: the maps of the
runtime are keyed by the graph pointer, that is by addr. -/
structure KernelGraph where
  addr : Nat
  graph_id : Nat
  execution_order : List CNode
  inputs : List AnfNode
deriving DecidableEq

/-- The arguments from which GenTask builds a DavinciModel (those that are not literal zeros
or empty lists). -/
structure DavinciModel where
  task_info_list : List Nat
  wait_active_stream_list : List Nat
  force_copy_stream_list : List Nat
  stream_num : Nat
  event_num : Nat
deriving DecidableEq

/-- A call that leaves the translation unit, with the arguments the source passes. -/
inductive Call where
  | rtGetDeviceCount
  | rtSetDevice (device_id : Nat)
  | rtCtxCreate (device_id : Nat)
  | rtCtxSetCurrent (ctx : Ptr)
  | rtCtxDestroy (ctx : Ptr)
  | rtStreamCreate
  | rtStreamDestroy (stream : Ptr)
  | rtStreamSynchronize (stream : Ptr)
  | rtMalloc (size : Nat)
  | rtFree (p : Ptr)
  | hcom_init (path rank : String)
  | hcom_destroy
  | UnloadModel (model_id : Nat)
  | LoadDavinciModel (device_id stream_index model_id : Nat) (model : DavinciModel)
  | GetTaskIdList (model_id : Nat)
  | RunModel (model_id : Nat)
  | GenTasks (nodes : List CNode) (graph_id : Nat)
  | CheckNormalIR (graph : Option KernelGraph)
  | GetWaitStreams
  | GetHcomStreams
  | GetTotalStreamNum
  | GetTotalEventNum
  | SetDumpConf
  | StartupProfiling (device_id : Nat)
  | StopProfiling
  | IsProfiling
  | ReportProfilingData (graph_id : Nat) (task_ids : List Nat)
  | AllocTensorMem (size : Nat)
  | set_device_mem_pool_base (p : Ptr)
  | set_device_mem_pool_size (size : Nat)
  | MallocStaticMem (size : Nat) (flag : Bool)
  | MallocDynamicMem (size : Nat) (flag : Bool)
  | DumpMemToFile (trans_flag : Bool) (filepath : List Char)
deriving DecidableEq

/-- What an external call reports: ok is success (RT_ERROR_NONE, HCCL_SUCCESS, or the boolean
true; for the base-class allocators: a normal return), out is the pointer or number it yields
(through an out-parameter or as its value), list is the vector it yields, offset is the value a
bump allocator of the base class leaves in the offset it moves. -/
structure Resp where
  ok : Bool
  out : Nat
  list : List Nat
  offset : Nat := 0
deriving DecidableEq

/-- The MsContext singleton, reduced to the settings the source reads or writes.  The accessor
GetInstance always yields the singleton, so the null checks on its result never fire. -/
structure MsContext where
  enable_task_sink : Bool
  enable_hccl : Bool
  enable_dynamic_mem_pool : Bool
  enable_mem_reuse : Bool
  device_id : Nat
  tsd_opened : Bool
deriving DecidableEq

/-- The fields of AscendKernelRuntime the source touches, the MsContext singleton, and the
trace of external calls made so far (oldest first).  The three maps are association lists
keyed by the graph address; the order of a list is the iteration order of the container. -/
structure Runtime where
  initialized_ : Bool
  device_id_ : Nat
  rt_context_ : Ptr
  stream_ : Ptr
  device_mem_base_ : Ptr
  device_mem_pool_base_ : Ptr
  device_mem_size_ : Nat
  device_mem_pool_size_ : Nat
  static_mem_offset_ : Nat
  dynamic_mem_offset_ : Nat
  graph_model_map_ : List (Nat × DavinciModel)
  graph_model_id_map_ : List (Nat × Nat)
  task_map_ : List (Nat × List Nat)
  context : MsContext
  trace : List Call
deriving DecidableEq

/-- Everything outside the runtime object: the oracle answering external calls from the calls
made so far, the process environment, path resolution, the compile-time switches, and the
constants whose declarations are in headers that are not part of the source file. -/
structure Env where
  reply : List Call → Call → Resp
  getenv : String → Option String
  realpath : String → Option String
  PATH_MAX : Nat
  ENABLE_DUMP_E2E : Bool
  MEM_REUSE_DEBUG : Bool
  kStaticMem : Int
  kDynamicMem : Int
  mem_ratio_num : Nat
  mem_ratio_den : Nat

/-- The exceptions the source raises. -/
inductive Exn where
  | DeviceProcessError
  | NotExistsError
  | Exception
deriving DecidableEq

/-- The result of running a member function: a normal return with a value, or an exception;
either way with the state reached. -/
inductive Outcome (α : Type) where
  | ret (a : α) (s : Runtime)
  | raised (e : Exn) (s : Runtime)

/-- The state a run ends in, whether it returned or raised. -/
def Outcome.state {α : Type} : Outcome α → Runtime
  | .ret _ s => s
  | .raised _ s => s

/-- Whether a run raised. -/
def Outcome.isRaised {α : Type} : Outcome α → Bool
  | .ret _ _ => false
  | .raised _ _ => true

/-- State-passing computations that may raise. -/
def M (α : Type) : Type := Runtime → Outcome α

/-- Sequencing: an exception ends the computation and keeps the state reached. -/
def M.bind {α β : Type} (m : M α) (f : α → M β) : M β := fun s =>
  match m s with
  | .ret a s1 => f a s1
  | .raised e s1 => .raised e s1

instance : Monad M where
  pure a := fun s => .ret a s
  bind := M.bind

/-- Raise an exception. -/
def raise {α : Type} (e : Exn) : M α := fun s => .raised e s

/-- Read the state. -/
def getState : M Runtime := fun s => .ret s s

/-- Replace the state. -/
def modifyState (f : Runtime → Runtime) : M Unit := fun s => .ret () (f s)

/-- Make an external call: it is recorded in the trace and answered by the oracle. -/
def call (env : Env) (c : Call) : M Resp := fun s =>
  .ret (env.reply s.trace c) { s with trace := s.trace ++ [c] }

/-- Lookup in a map (find). -/
def mapFind {β : Type} (k : Nat) : List (Nat × β) → Option β
  | [] => none
  | (k1, v) :: rest => if k1 = k then some v else mapFind k rest

/-- Assignment through operator[]: overwrite the entry of the key, or add one. -/
def mapAssign {β : Type} (k : Nat) (v : β) : List (Nat × β) → List (Nat × β)
  | [] => [(k, v)]
  | (k1, v1) :: rest => if k1 = k then (k, v) :: rest else (k1, v1) :: mapAssign k v rest

/-- The member insert of a map: add the entry unless the key is present. -/
def mapInsert {β : Type} (k : Nat) (v : β) (m : List (Nat × β)) : List (Nat × β) :=
  match mapFind k m with
  | some _ => m
  | none => m ++ [(k, v)]

/-- The keys of a map. -/
def mapKeys {β : Type} (m : List (Nat × β)) : List Nat := m.map Prod.fst

/-- The loop of ClearGraphModelMap over the entries of graph_model_id_map_. -/
def unloadLoop (env : Env) : List (Nat × Nat) → M Unit
  | [] => pure ()
  | (_, model_id) :: rest => do
      let _ret ← call env (.UnloadModel model_id)
      unloadLoop env rest

/-- AscendKernelRuntime::ClearGraphModelMap. -/
def ClearGraphModelMap (env : Env) : M Unit := do
  let s ← getState
  unloadLoop env s.graph_model_id_map_

/-- AscendKernelRuntime::NeedDestroyHccl. -/
def NeedDestroyHccl : M Bool := do
  let s ← getState
  if !s.context.enable_hccl then
    return false
  return true

/-- AscendKernelRuntime::FreeDeviceMemory. -/
def FreeDeviceMemory (env : Env) : M Unit := do
  let s ← getState
  if s.device_mem_base_ ≠ 0 then
    let _ret ← call env (.rtFree s.device_mem_base_)
    modifyState fun t => { t with device_mem_base_ := 0 }
  let s ← getState
  if s.device_mem_pool_base_ ≠ 0 then
    let _ret ← call env (.rtFree s.device_mem_pool_base_)
    modifyState fun t => { t with device_mem_pool_base_ := 0 }

/-- AscendKernelRuntime::FreeHostMemory. -/
def FreeHostMemory : M Unit :=
  modifyState fun t => { t with dynamic_mem_offset_ := 0 }

/-- AscendKernelRuntime::DestroyHccl. -/
def DestroyHccl (env : Env) : M Bool := do
  let need ← NeedDestroyHccl
  if !need then
    return true
  let res ← call env .hcom_destroy
  if !res.ok then
    return false
  modifyState fun t => { t with context := { t.context with enable_hccl := false } }
  return true

/-- AscendKernelRuntime::ResetDevice. -/
def ResetDevice (env : Env) : M Bool := do
  let s ← getState
  let ret ← call env (.rtCtxSetCurrent s.rt_context_)
  if !ret.ok then
    return false
  if s.stream_ ≠ 0 then
    let ret ← call env (.rtStreamDestroy s.stream_)
    if !ret.ok then
      raise .Exception
    modifyState fun t => { t with stream_ := 0 }
  if s.rt_context_ ≠ 0 then
    let ret ← call env (.rtCtxDestroy s.rt_context_)
    if !ret.ok then
      raise .DeviceProcessError
    modifyState fun t => { t with rt_context_ := 0 }
  return true

/-- AscendKernelRuntime::ReleaseDeviceRes. -/
def ReleaseDeviceRes (env : Env) : M Unit := do
  ClearGraphModelMap env
  let s ← getState
  let ret ← call env (.rtSetDevice s.context.device_id)
  if !ret.ok then
    raise .DeviceProcessError
  FreeDeviceMemory env
  let _ ← DestroyHccl env
  let _ ← ResetDevice env
  let _ ← call env .StopProfiling
  return ()

/-- AscendKernelRuntime::SyncStream. -/
def SyncStream (env : Env) : M Bool := do
  let s ← getState
  let ret ← call env (.rtStreamSynchronize s.stream_)
  if !ret.ok then
    return false
  return true

/-- AscendKernelRuntime::HcclInit.  The size of the path is its size in bytes. -/
def HcclInit (env : Env) : M Bool := do
  let s ← getState
  if !s.context.tsd_opened then
    raise .Exception
  match env.getenv "MINDSPORE_HCCL_CONFIG_PATH" with
  | none => return false
  | some path =>
    if path.utf8ByteSize > env.PATH_MAX then
      return false
    match env.realpath path with
    | none => return false
    | some fullPath =>
      match env.getenv "RANK_ID" with
      | none => return false
      | some identify =>
        let res ← call env (.hcom_init fullPath identify)
        if !res.ok then
          return false
        return true

/-- AscendKernelRuntime::InitDevice.  A driver function with an out-parameter stores the
value the oracle reports into the field before its return code is examined. -/
def InitDevice (env : Env) : M Bool := do
  let ret ← call env .rtGetDeviceCount
  if !ret.ok then
    raise .DeviceProcessError
  let s ← getState
  let ret ← call env (.rtSetDevice s.device_id_)
  if !ret.ok then
    raise .DeviceProcessError
  if s.context.enable_hccl then
    let ok ← HcclInit env
    if !ok then
      return false
  let ret ← call env (.rtCtxCreate s.device_id_)
  modifyState fun t => { t with rt_context_ := ret.out }
  if !ret.ok then
    raise .DeviceProcessError
  let ret1 ← call env (.rtCtxSetCurrent ret.out)
  if !ret1.ok then
    raise .DeviceProcessError
  let ret2 ← call env .rtStreamCreate
  modifyState fun t => { t with stream_ := ret2.out }
  if !ret2.ok then
    raise .Exception
  return true

/-- AscendKernelRuntime::MallocDeviceMemory.  The constant GRAPH_INIT_DAVINCI_MEM_RATIO is
declared outside the source file; it is taken as the fraction mem_ratio_num / mem_ratio_den
of the environment, and FloatToSize of a product as the integer part of the exact product. -/
def MallocDeviceMemory (env : Env) : M Bool := do
  modifyState fun t => { t with device_mem_size_ := ASCEND_MEM_SIZE_BYTE }
  let s ← getState
  if s.context.enable_dynamic_mem_pool then
    let pool_size := s.device_mem_size_ * (env.mem_ratio_den - env.mem_ratio_num) / env.mem_ratio_den
    modifyState fun t => { t with
      static_mem_offset_ := t.device_mem_size_ * env.mem_ratio_num / env.mem_ratio_den,
      device_mem_pool_size_ := pool_size }
    let ret ← call env (.rtMalloc pool_size)
    modifyState fun t => { t with device_mem_pool_base_ := ret.out }
    if !ret.ok then
      raise .DeviceProcessError
    let _ ← call env (.set_device_mem_pool_base ret.out)
    let _ ← call env (.set_device_mem_pool_size pool_size)
  else
    modifyState fun t => { t with static_mem_offset_ := t.device_mem_size_ }
  let s ← getState
  let ret ← call env (.rtMalloc s.device_mem_size_)
  modifyState fun t => { t with device_mem_base_ := ret.out }
  if !ret.ok then
    raise .DeviceProcessError
  return true

/-- AscendKernelRuntime::Init. -/
def Init (env : Env) : M Bool := do
  let s ← getState
  if s.initialized_ then
    return true
  if env.ENABLE_DUMP_E2E then
    let _ret ← call env .SetDumpConf
  let ret ← InitDevice env
  if !ret then
    return ret
  let ret ← MallocDeviceMemory env
  if !ret then
    return ret
  let ret ← call env (.StartupProfiling s.device_id_)
  if !ret.ok then
    raise .DeviceProcessError
  modifyState fun t => { t with initialized_ := true }
  return ret.ok

/-- The fields of a device address that MallocOpMemory writes. -/
structure DeviceAddress where
  ptr_ : Ptr
  mem_dynamic_alloc_ : Bool
deriving DecidableEq

/-- Modelled from the spec: the member MallocStaticMem of the base class, whose code is outside
the source file.  It is the static bump allocator: it yields a pointer into the main arena and
moves static_mem_offset_; running out of space is a hard error, and an allocation that fails
allocates nothing.  The pointer and the new offset are those the oracle reports, and a reply
that is not ok is the hard error. -/
def MallocStaticMem (env : Env) (size : Nat) (flag : Bool) : M Ptr := do
  let r ← call env (.MallocStaticMem size flag)
  if !r.ok then
    raise .Exception
  modifyState fun t => { t with static_mem_offset_ := r.offset }
  return r.out

/-- Modelled from the spec: the member MallocDynamicMem of the base class, whose code is outside
the source file.  It is the dynamic bump allocator: it yields a pointer into the main arena and
moves dynamic_mem_offset_; running out of space is a hard error, and an allocation that fails
allocates nothing.  The pointer and the new offset are those the oracle reports, and a reply
that is not ok is the hard error. -/
def MallocDynamicMem (env : Env) (size : Nat) (flag : Bool) : M Ptr := do
  let r ← call env (.MallocDynamicMem size flag)
  if !r.ok then
    raise .Exception
  modifyState fun t => { t with dynamic_mem_offset_ := r.offset }
  return r.out

/-- AscendKernelRuntime::MallocOpMemory.  The address object is not a field of the runtime:
the function returns its content after the call next to the outcome. -/
def MallocOpMemory (env : Env) (address : DeviceAddress) (size : Nat) (flag : Int)
    (s : Runtime) : Outcome Unit × DeviceAddress :=
  if s.context.enable_dynamic_mem_pool then
    match call env (.AllocTensorMem size) s with
    | .raised e s1 => (.raised e s1, address)
    | .ret device_ptr s1 =>
      if device_ptr.out = 0 then (.raised .Exception s1, address)
      else (.ret () s1, { address with ptr_ := device_ptr.out, mem_dynamic_alloc_ := true })
  else if flag = env.kStaticMem then
    match MallocStaticMem env size false s with
    | .raised e s1 => (.raised e s1, address)
    | .ret device_ptr s1 => (.ret () s1, { address with ptr_ := device_ptr })
  else if flag = env.kDynamicMem then
    match MallocDynamicMem env size false s with
    | .raised e s1 => (.raised e s1, address)
    | .ret device_ptr s1 => (.ret () s1, { address with ptr_ := device_ptr })
  else
    (.raised .Exception s, address)

/-- AscendKernelRuntime::GenTask.  A null graph pointer is none. -/
def GenTask (env : Env) (graph : Option KernelGraph) : M Bool := do
  let s ← getState
  let is_task_sink := s.context.enable_task_sink
  if !is_task_sink then
    return true
  if env.MEM_REUSE_DEBUG then
    if !s.context.enable_mem_reuse then
      let _ ← call env (.CheckNormalIR graph)
  match graph with
  | none => raise .NotExistsError
  | some g =>
    let task_info_list ← call env (.GenTasks g.execution_order g.graph_id)
    let wait_active_stream_list ← call env .GetWaitStreams
    let force_copy_stream_list ← call env .GetHcomStreams
    let stream_num ← call env .GetTotalStreamNum
    let event_num ← call env .GetTotalEventNum
    let model : DavinciModel :=
      { task_info_list := task_info_list.list,
        wait_active_stream_list := wait_active_stream_list.list,
        force_copy_stream_list := force_copy_stream_list.list,
        stream_num := stream_num.out,
        event_num := event_num.out }
    modifyState fun t => { t with graph_model_map_ := mapAssign g.addr model t.graph_model_map_ }
    modifyState fun t => { t with graph_model_id_map_ := mapAssign g.addr g.graph_id t.graph_model_id_map_ }
    modifyState fun t => { t with task_map_ := mapInsert g.addr task_info_list.list t.task_map_ }
    return true

/-- AscendKernelRuntime::GetGraphModelId. -/
def GetGraphModelId (kernel_graph : Option KernelGraph) : M Nat := do
  match kernel_graph with
  | none => raise .Exception
  | some g =>
    let s ← getState
    match mapFind g.addr s.graph_model_id_map_ with
    | none => raise .Exception
    | some model_id => return model_id

/-- AscendKernelRuntime::LoadTask. -/
def LoadTask (env : Env) (graph : Option KernelGraph) : M Bool := do
  match graph with
  | none => raise .NotExistsError
  | some g =>
    let s ← getState
    let is_task_sink := s.context.enable_task_sink
    if !is_task_sink then
      return true
    match mapFind g.addr s.graph_model_map_ with
    | none => return false
    | some model =>
      let model_id ← GetGraphModelId graph
      let status ← call env (.LoadDavinciModel s.device_id_ 0 model_id model)
      if !status.ok then
        return false
      let profiling ← call env .IsProfiling
      if profiling.ok then
        let task_ids ← call env (.GetTaskIdList model_id)
        let _ ← call env (.ReportProfilingData g.graph_id task_ids.list)
      return true

/-- AscendKernelRuntime::RunTask. -/
def RunTask (env : Env) (graph : Option KernelGraph) : M Bool := do
  match graph with
  | none => raise .Exception
  | some _ =>
    let model_id ← GetGraphModelId graph
    let status ← call env (.RunModel model_id)
    if !status.ok then
      return false
    return true

/-- The dump configuration, seen through the accessors DumpOutput and DumpParameters use. -/
structure DumpConf where
  trans_flag : Bool
  IsKernelNeedDump : List Char → Bool

/-- The search of std::string::find below: the first index at which pat occurs in the given
suffix, where i is the index of the first character of the suffix. -/
def findFrom (pat : List Char) : List Char → Nat → Option Nat
  | [], i => if pat = [] then some i else none
  | c :: cs, i => if pat.isPrefixOf (c :: cs) then some i else findFrom pat cs (i + 1)

/-- The member find(str, pos) of std::string: the first index not below pos at which str
occurs; none is npos. -/
def strFind (s pat : List Char) (pos : Nat) : Option Nat :=
  if pos ≤ s.length then findFrom pat (s.drop pos) pos else none

/-- The member replace(pos, len, str) of std::string, for a position inside the string. -/
def strReplace (s : List Char) (pos len : Nat) (str : List Char) : List Char :=
  s.take pos ++ str ++ s.drop (pos + len)

/-- The while loop of DumpOutput that rewrites kernel_name, started at position pos.  Each
iteration uses one unit of fuel; none means the fuel ran out before the loop ended. -/
def replaceLoop (strsrc strdst : List Char) : Nat → List Char → Nat → Option (List Char)
  | 0, _, _ => none
  | fuel + 1, kernel_name, pos =>
    match strFind kernel_name strsrc pos with
    | none => some kernel_name
    | some p =>
      replaceLoop strsrc strdst fuel (strReplace kernel_name p strsrc.length strdst) (p + strdst.length)

/-- The rewriting of kernel_name in DumpOutput: strsrc is "/", strdst is "--", pos starts at 0. -/
def fileKernelName (fuel : Nat) (kernel_name : List Char) : Option (List Char) :=
  replaceLoop ['/'] ['-', '-'] fuel kernel_name 0

/-- The function std::to_string on an index. -/
def to_string (j : Nat) : List Char := Nat.toDigits 10 j

/-- The inner loop of DumpOutput over the output indices j, j + 1, ... of one node; n is the
number of indices left. -/
def dumpNodeOutputs (env : Env) (trans_flag : Bool) (dump_path kernel_name : List Char) :
    Nat → Nat → M Unit
  | 0, _ => pure ()
  | n + 1, j => do
    let filepath := dump_path ++ ['/'] ++ kernel_name ++ ['_'] ++
      ['o', 'u', 't', 'p', 'u', 't', '_'] ++ to_string j
    let _ret ← call env (.DumpMemToFile trans_flag filepath)
    dumpNodeOutputs env trans_flag dump_path kernel_name n (j + 1)

/-- The outer loop of DumpOutput over the execution order.  The result is none when the
rewriting of some kernel name does not end within the fuel. -/
def dumpOutputLoop (env : Env) (fuel : Nat) (dump_conf : DumpConf) (dump_path : List Char) :
    List CNode → Runtime → Option (Outcome Unit)
  | [], s => some (.ret () s)
  | node :: rest, s =>
    if !dump_conf.IsKernelNeedDump node.fullname_with_scope then
      dumpOutputLoop env fuel dump_conf dump_path rest s
    else
      match fileKernelName fuel node.fullname_with_scope with
      | none => none
      | some kernel_name =>
        match dumpNodeOutputs env dump_conf.trans_flag dump_path kernel_name node.output_num 0 s with
        | .ret _ s1 => dumpOutputLoop env fuel dump_conf dump_path rest s1
        | .raised e s1 => some (.raised e s1)

/-- The function DumpOutput of the source; fuel bounds the iterations of each rewriting loop. -/
def DumpOutput (env : Env) (fuel : Nat) (graph : Option KernelGraph) (dump_path : List Char)
    (dump_conf : Option DumpConf) (s : Runtime) : Option (Outcome Unit) :=
  match graph, dump_conf with
  | none, _ => some (.raised .Exception s)
  | some _, none => some (.raised .Exception s)
  | some g, some conf => dumpOutputLoop env fuel conf dump_path g.execution_order s

/-- The loop of DumpParameters over the inputs of the graph. -/
def dumpParametersLoop (env : Env) (dump_conf : DumpConf) (dump_path : List Char) :
    List AnfNode → M Unit
  | [] => pure ()
  | item :: rest => do
    if !item.is_parameter then
      dumpParametersLoop env dump_conf dump_path rest
    else
      let parameter_name := item.fullname_with_scope
      if !dump_conf.IsKernelNeedDump parameter_name then
        dumpParametersLoop env dump_conf dump_path rest
      else
        let filepath := dump_path ++ ['/'] ++ parameter_name ++ ['_'] ++
          ['o', 'u', 't', 'p', 'u', 't', '_', '0']
        let _ret ← call env (.DumpMemToFile dump_conf.trans_flag filepath)
        dumpParametersLoop env dump_conf dump_path rest

/-- The function DumpParameters of the source. -/
def DumpParameters (env : Env) (graph : Option KernelGraph) (dump_path : List Char)
    (dump_conf : Option DumpConf) : M Unit :=
  match graph, dump_conf with
  | none, _ => raise .Exception
  | some _, none => raise .Exception
  | some g, some conf => dumpParametersLoop env conf dump_path g.inputs

/-- The operations a caller can apply to the runtime. -/
inductive Op where
  | Init
  | ReleaseDeviceRes
  | FreeDeviceMemory
  | ResetDevice
  | FreeHostMemory
  | ClearGraphModelMap
  | DestroyHccl
  | HcclInit
  | SyncStream
  | GenTask (graph : Option KernelGraph)
  | LoadTask (graph : Option KernelGraph)
  | RunTask (graph : Option KernelGraph)
  | MallocOpMemory (address : DeviceAddress) (size : Nat) (flag : Int)
  | DumpParameters (graph : Option KernelGraph) (dump_path : List Char) (dump_conf : Option DumpConf)

/-- The state after one operation, whether it returned or raised (a caller may catch the
exception and go on using the object). -/
def runOp (env : Env) (op : Op) (s : Runtime) : Runtime :=
  match op with
  | .Init => (Init env s).state
  | .ReleaseDeviceRes => (ReleaseDeviceRes env s).state
  | .FreeDeviceMemory => (FreeDeviceMemory env s).state
  | .ResetDevice => (ResetDevice env s).state
  | .FreeHostMemory => (FreeHostMemory s).state
  | .ClearGraphModelMap => (ClearGraphModelMap env s).state
  | .DestroyHccl => (DestroyHccl env s).state
  | .HcclInit => (HcclInit env s).state
  | .SyncStream => (SyncStream env s).state
  | .GenTask graph => (GenTask env graph s).state
  | .LoadTask graph => (LoadTask env graph s).state
  | .RunTask graph => (RunTask env graph s).state
  | .MallocOpMemory address size flag => (MallocOpMemory env address size flag s).1.state
  | .DumpParameters graph dump_path dump_conf => (DumpParameters env graph dump_path dump_conf s).state

/-- The state after a sequence of operations. -/
def runOps (env : Env) (ops : List Op) (s : Runtime) : Runtime :=
  ops.foldl (fun t op => runOp env op t) s

/-- Whether an operation is one of the teardown operations. -/
def Op.isTeardown : Op → Bool
  | .ReleaseDeviceRes => true
  | .FreeDeviceMemory => true
  | .ResetDevice => true
  | _ => false

/-- A runtime object right after construction: not initialized, null handles, empty maps, no
external call made yet. -/
def Runtime.fresh (context : MsContext) (device_id : Nat) : Runtime :=
  { initialized_ := false, device_id_ := device_id, rt_context_ := 0, stream_ := 0,
    device_mem_base_ := 0, device_mem_pool_base_ := 0, device_mem_size_ := 0,
    device_mem_pool_size_ := 0, static_mem_offset_ := 0, dynamic_mem_offset_ := 0,
    graph_model_map_ := [], graph_model_id_map_ := [], task_map_ := [],
    context := context, trace := [] }

/-- The invariant of the data model: an initialized runtime has a runtime context, a default
stream and a main arena. -/
def Runtime.handlesLive (s : Runtime) : Prop :=
  s.initialized_ = true → s.rt_context_ ≠ 0 ∧ s.stream_ ≠ 0 ∧ s.device_mem_base_ ≠ 0

/-! ## Concrete inputs -/

/-- A context with the given task_sink, hccl and dynamic pool switches; the tensor subsystem
handle is open. -/
def sampleContext (task_sink hccl pool : Bool) : MsContext :=
  { enable_task_sink := task_sink, enable_hccl := hccl, enable_dynamic_mem_pool := pool,
    enable_mem_reuse := true, device_id := 0, tsd_opened := true }

/-- An environment whose external calls all report the given success flag, the handle 7 and
the list 1, 2; both environment variables are set and every path resolves to itself. -/
def sampleEnv (ok : Bool) : Env :=
  { reply := fun _ _ => { ok := ok, out := 7, list := [1, 2] },
    getenv := fun _ => some "hccl.json",
    realpath := fun path => some path,
    PATH_MAX := 4096, ENABLE_DUMP_E2E := false, MEM_REUSE_DEBUG := false,
    kStaticMem := 0, kDynamicMem := 1, mem_ratio_num := 1, mem_ratio_den := 2 }

/-- A graph at address 1000 with graph id 3, one operator and one parameter whose name holds
a slash. -/
def sampleGraph : KernelGraph :=
  { addr := 1000, graph_id := 3,
    execution_order := [{ fullname_with_scope := ['D', '/', 'c'], output_num := 1 }],
    inputs := [{ is_parameter := true, fullname_with_scope := ['a', '/', 'b'] }] }

/-- A compiled model for the sample graph. -/
def sampleModel : DavinciModel :=
  { task_info_list := [1, 2], wait_active_stream_list := [], force_copy_stream_list := [],
    stream_num := 1, event_num := 0 }

/-- A runtime that is not initialized and whose three maps hold the sample graph. -/
def sampleCached (context : MsContext) : Runtime :=
  { (Runtime.fresh context 0) with
    graph_model_map_ := [(1000, sampleModel)],
    graph_model_id_map_ := [(1000, 3)],
    task_map_ := [(1000, [1, 2])] }

/-- The external calls ClearGraphModelMap makes for the entries of a model-id map: one
UnloadModel per entry, in iteration order. -/
def unloadCalls (m : List (Nat × Nat)) : List Call :=
  m.map fun entry => Call.UnloadModel entry.2

/-- The external calls FreeDeviceMemory makes: one rtFree per arena that is allocated. -/
def freeCalls (s : Runtime) : List Call :=
  (if s.device_mem_base_ ≠ 0 then [Call.rtFree s.device_mem_base_] else []) ++
  (if s.device_mem_pool_base_ ≠ 0 then [Call.rtFree s.device_mem_pool_base_] else [])

/-- The external calls DestroyHccl makes: the library's destroy when comms are enabled. -/
def hcclCalls (s : Runtime) : List Call :=
  if s.context.enable_hccl then [Call.hcom_destroy] else []

/-- The external calls of a ResetDevice in which no driver call fails: make the context
current, destroy the stream if there is one, destroy the context if there is one. -/
def resetCalls (s : Runtime) : List Call :=
  [Call.rtCtxSetCurrent s.rt_context_] ++
  (if s.stream_ ≠ 0 then [Call.rtStreamDestroy s.stream_] else []) ++
  (if s.rt_context_ ≠ 0 then [Call.rtCtxDestroy s.rt_context_] else [])

/-- The teardown steps in the order the specification gives them: unload all cached models,
rebind the device, free the arenas, destroy comms, destroy stream and context, stop
profiling. -/
def teardownCalls (s : Runtime) : List Call :=
  unloadCalls s.graph_model_id_map_ ++ [Call.rtSetDevice s.context.device_id] ++ freeCalls s ++
  hcclCalls s ++ resetCalls s ++ [Call.StopProfiling]

/-- An environment in which the named driver call fails and every other call succeeds. -/
def failingEnv (fails : Call → Bool) : Env :=
  { sampleEnv true with reply := fun _ c => { ok := !fails c, out := 7, list := [1, 2] } }

/-- A runtime with live handles and arenas, comms enabled, and one cached graph. -/
def sampleLive : Runtime :=
  { sampleCached (sampleContext true true true) with
    initialized_ := true, rt_context_ := 11, stream_ := 12, device_mem_base_ := 13,
    device_mem_pool_base_ := 14 }

/-- The fields the data-model invariant speaks about are the same in both states. -/
def keepsHandles (s t : Runtime) : Prop :=
  t.initialized_ = s.initialized_ ∧ t.rt_context_ = s.rt_context_ ∧ t.stream_ = s.stream_ ∧
  t.device_mem_base_ = s.device_mem_base_

/-- The weakest precondition of a computation: Q is to hold of the value and state of a
normal return, R of the state in which an exception is raised. -/
def wp {α : Type} (m : M α) (Q : α → Runtime → Prop) (R : Runtime → Prop) (s : Runtime) : Prop :=
  match m s with
  | .ret a s1 => Q a s1
  | .raised _ s1 => R s1

/-- An environment whose bump allocators succeed, yield the pointer 9 and leave the offset
they move at 512. -/
def bumpEnv : Env :=
  { sampleEnv true with reply := fun _ _ => { ok := true, out := 9, list := [], offset := 512 } }

/-- A dump configuration that selects every name and does not transform the data. -/
def sampleDumpConf : DumpConf :=
  { trans_flag := false, IsKernelNeedDump := fun _ => true }

/-- The rewriting the specification describes for operator names: every slash becomes two
dashes, every other character is kept, in the order of the name. -/
def replaceSlash : List Char → List Char
  | [] => []
  | c :: cs => if c = '/' then '-' :: '-' :: replaceSlash cs else c :: replaceSlash cs

/-- The dump file of output index i as the specification names it: the dump directory, a
slash, the rewritten name, the text _output_ and the index. -/
def outputFilePath (dump_path kernel_name : List Char) (i : Nat) : List Char :=
  dump_path ++ ['/'] ++ kernel_name ++ ['_', 'o', 'u', 't', 'p', 'u', 't', '_'] ++ to_string i

/-- The files the specification has DumpOutput write: for each selected operator in execution
order, one file per output index, named after the rewritten operator name. -/
def dumpOutputCalls (dump_conf : DumpConf) (dump_path : List Char) : List CNode → List Call
  | [] => []
  | node :: rest =>
    (if dump_conf.IsKernelNeedDump node.fullname_with_scope then
      (List.range node.output_num).map fun i =>
        Call.DumpMemToFile dump_conf.trans_flag
          (outputFilePath dump_path (replaceSlash node.fullname_with_scope) i)
    else []) ++ dumpOutputCalls dump_conf dump_path rest

/-- A graph with the operator Default/network/conv1, which has two outputs. -/
def sampleNetGraph : KernelGraph :=
  { addr := 2000, graph_id := 4,
    execution_order :=
      [{ fullname_with_scope := "Default/network/conv1".toList, output_num := 2 }],
    inputs := [] }

/-! ## Reasoning about the state-passing computations -/

theorem bind_apply {α β : Type} (m : M α) (f : α → M β) (s : Runtime) :
    (m >>= f) s = match m s with
      | .ret a s1 => f a s1
      | .raised e s1 => .raised e s1 := rfl

theorem pure_apply {α : Type} (a : α) (s : Runtime) : (pure a : M α) s = .ret a s := rfl

theorem raise_apply {α : Type} (e : Exn) (s : Runtime) : (raise e : M α) s = .raised e s := rfl

theorem getState_apply (s : Runtime) : getState s = .ret s s := rfl

theorem modifyState_apply (f : Runtime → Runtime) (s : Runtime) :
    modifyState f s = .ret () (f s) := rfl

theorem call_apply (env : Env) (c : Call) (s : Runtime) :
    call env c s = .ret (env.reply s.trace c) { s with trace := s.trace ++ [c] } := rfl

theorem ite_run {α : Type} (c : Prop) [Decidable c] (m1 m2 : M α) (s : Runtime) :
    (if c then m1 else m2) s = if c then m1 s else m2 s := by
  split <;> rfl

/-! ## The task_sink gate -/

/-- With task_sink disabled GenTask returns true and leaves the state, trace included, as it
was; no external call is made. -/
theorem GenTask_task_sink_off (env : Env) (graph : Option KernelGraph) (s : Runtime)
    (h : s.context.enable_task_sink = false) :
    GenTask env graph s = .ret true s := by
  simp [GenTask, bind_apply, getState_apply, pure_apply, h]

/-- With task_sink disabled LoadTask on a non-null graph returns true and leaves the state,
trace included, as it was; no external call is made. -/
theorem LoadTask_task_sink_off (env : Env) (g : KernelGraph) (s : Runtime)
    (h : s.context.enable_task_sink = false) :
    LoadTask env (some g) s = .ret true s := by
  simp [LoadTask, bind_apply, getState_apply, pure_apply, h]

/-- With task_sink disabled RunTask is not gated.  C1 (code defect): on a runtime whose cache
is empty, as GenTask leaves it when task_sink is off, RunTask of a non-null graph raises instead
of returning true; on a cache that holds the graph it calls the model runner. -/
theorem RunTask_task_sink_off_not_gated :
    (sampleContext false false false).enable_task_sink = false ∧
    RunTask (sampleEnv true) (some sampleGraph) (Runtime.fresh (sampleContext false false false) 0)
      = .raised .Exception (Runtime.fresh (sampleContext false false false) 0) ∧
    RunTask (sampleEnv true) (some sampleGraph) (sampleCached (sampleContext false false false))
      = .ret true { sampleCached (sampleContext false false false) with trace := [.RunModel 3] } := by
  refine ⟨rfl, rfl, rfl⟩

/-! ## ClearGraphModelMap -/

theorem unloadLoop_apply (env : Env) (m : List (Nat × Nat)) (s : Runtime) :
    unloadLoop env m s = .ret () { s with trace := s.trace ++ unloadCalls m } := by
  induction m generalizing s with
  | nil => simp [unloadLoop, unloadCalls, pure_apply]
  | cons entry rest ih =>
    obtain ⟨k, model_id⟩ := entry
    simp [unloadLoop, bind_apply, call_apply, ih, unloadCalls]

theorem ClearGraphModelMap_apply (env : Env) (s : Runtime) :
    ClearGraphModelMap env s
      = .ret () { s with trace := s.trace ++ unloadCalls s.graph_model_id_map_ } := by
  simp [ClearGraphModelMap, bind_apply, getState_apply, unloadLoop_apply]

/-- C2 as stated fails: after ClearGraphModelMap on a cache holding one graph the model has
been unloaded, and the three maps still hold the graph. -/
theorem ClearGraphModelMap_maps_not_emptied :
    (ClearGraphModelMap (sampleEnv true) (sampleCached (sampleContext true false false))).state.trace
      = [.UnloadModel 3] ∧
    (ClearGraphModelMap (sampleEnv true) (sampleCached (sampleContext true false false))).state.graph_model_map_ ≠ [] ∧
    (ClearGraphModelMap (sampleEnv true) (sampleCached (sampleContext true false false))).state.graph_model_id_map_ ≠ [] ∧
    (ClearGraphModelMap (sampleEnv true) (sampleCached (sampleContext true false false))).state.task_map_ ≠ [] := by
  refine ⟨rfl, ?_, ?_, ?_⟩ <;> simp [ClearGraphModelMap_apply, Outcome.state, sampleCached]

/-- C2, amended: for every state and every oracle (so whatever each unload reports),
ClearGraphModelMap returns normally, its external calls are exactly one UnloadModel per entry
of the model-id map, in iteration order, and every field of the runtime, the three maps
included, is left as it was. -/
theorem ClearGraphModelMap_unloads_each_entry (env : Env) (s : Runtime) :
    ∃ s1, ClearGraphModelMap env s = .ret () s1 ∧
      s1.trace = s.trace ++ s.graph_model_id_map_.map (fun entry => Call.UnloadModel entry.2) ∧
      s1.graph_model_map_ = s.graph_model_map_ ∧
      s1.graph_model_id_map_ = s.graph_model_id_map_ ∧
      s1.task_map_ = s.task_map_ ∧
      { s1 with trace := s.trace } = s := by
  exact ⟨_, ClearGraphModelMap_apply env s, rfl, rfl, rfl, rfl, rfl⟩

/-! ## Teardown -/

theorem FreeDeviceMemory_apply (env : Env) (s : Runtime) :
    FreeDeviceMemory env s = .ret () { s with
      device_mem_base_ := 0, device_mem_pool_base_ := 0, trace := s.trace ++ freeCalls s } := by
  obtain ⟨i, d, c, st, b, pb, sz, psz, so, dyo, m1, m2, m3, cx, tr⟩ := s
  by_cases hb : b = 0 <;> by_cases hp : pb = 0 <;>
    simp [FreeDeviceMemory, bind_apply, getState_apply, pure_apply, modifyState_apply,
      call_apply, freeCalls, hb, hp]

theorem DestroyHccl_apply (env : Env) (s : Runtime) :
    DestroyHccl env s = .ret (!s.context.enable_hccl || (env.reply s.trace .hcom_destroy).ok)
      { s with
        context := { s.context with
          enable_hccl := s.context.enable_hccl && !(env.reply s.trace .hcom_destroy).ok },
        trace := s.trace ++ hcclCalls s } := by
  obtain ⟨i, d, c, st, bs, pb, sz, psz, so, dyo, m1, m2, m3, cx, tr⟩ := s
  obtain ⟨ts, hc, pool, mr, dev, tsd⟩ := cx
  cases hc
  · simp [DestroyHccl, NeedDestroyHccl, bind_apply, getState_apply, pure_apply, hcclCalls]
  · cases hr : (env.reply tr Call.hcom_destroy).ok <;>
      simp [DestroyHccl, NeedDestroyHccl, bind_apply, getState_apply, pure_apply, hcclCalls,
        call_apply, hr, modifyState_apply]

theorem ResetDevice_apply (env : Env) (s : Runtime)
    (hcur : ∀ h c, (env.reply h (.rtCtxSetCurrent c)).ok = true)
    (hsd : ∀ h p, (env.reply h (.rtStreamDestroy p)).ok = true)
    (hcd : ∀ h p, (env.reply h (.rtCtxDestroy p)).ok = true) :
    ResetDevice env s = .ret true { s with
      stream_ := 0, rt_context_ := 0, trace := s.trace ++ resetCalls s } := by
  obtain ⟨i, d, c, st, b, pb, sz, psz, so, dyo, m1, m2, m3, cx, tr⟩ := s
  by_cases hs : st = 0 <;> by_cases hc : c = 0 <;>
    simp [ResetDevice, bind_apply, getState_apply, pure_apply, modifyState_apply,
      call_apply, resetCalls, hs, hc, hcur, hsd, hcd]

/-- C3 as stated fails.  On a live runtime with one cached model: when rebinding the device
fails, ReleaseDeviceRes raises right after the unload, and nothing is freed or destroyed; when
making the context current fails, it returns without destroying stream and context; when the
destruction of the stream fails, it raises without destroying the context or stopping profiling;
when the destruction of the context fails, it raises without stopping profiling. -/
theorem ReleaseDeviceRes_failure_skips_steps :
    ReleaseDeviceRes (failingEnv fun c => c == .rtSetDevice 0) sampleLive
      = .raised .DeviceProcessError
          { sampleLive with trace := [.UnloadModel 3, .rtSetDevice 0] } ∧
    ((ReleaseDeviceRes (failingEnv fun c => c == .rtCtxSetCurrent 11) sampleLive).isRaised = false ∧
      (ReleaseDeviceRes (failingEnv fun c => c == .rtCtxSetCurrent 11) sampleLive).state.trace
        = [.UnloadModel 3, .rtSetDevice 0, .rtFree 13, .rtFree 14, .hcom_destroy,
            .rtCtxSetCurrent 11, .StopProfiling]) ∧
    ((ReleaseDeviceRes (failingEnv fun c => c == .rtStreamDestroy 12) sampleLive).isRaised = true ∧
      (ReleaseDeviceRes (failingEnv fun c => c == .rtStreamDestroy 12) sampleLive).state.trace
        = [.UnloadModel 3, .rtSetDevice 0, .rtFree 13, .rtFree 14, .hcom_destroy,
            .rtCtxSetCurrent 11, .rtStreamDestroy 12]) ∧
    ((ReleaseDeviceRes (failingEnv fun c => c == .rtCtxDestroy 11) sampleLive).isRaised = true ∧
      (ReleaseDeviceRes (failingEnv fun c => c == .rtCtxDestroy 11) sampleLive).state.trace
        = [.UnloadModel 3, .rtSetDevice 0, .rtFree 13, .rtFree 14, .hcom_destroy,
            .rtCtxSetCurrent 11, .rtStreamDestroy 12, .rtCtxDestroy 11]) := by
  refine ⟨rfl, ⟨rfl, rfl⟩, ⟨rfl, rfl⟩, ⟨rfl, rfl⟩⟩

/-- C3, amended: for every state and every result of the unload, rtFree, hcom_destroy and
StopProfiling calls, if rtSetDevice, rtCtxSetCurrent, rtStreamDestroy and rtCtxDestroy report
success then ReleaseDeviceRes returns without raising and its external calls are, in this order,
the unload of every cached model, the rebinding of the device, the freeing of the arenas, the
destruction of comms, of the stream and of the context, and the stop of profiling; if instead
rtSetDevice fails it raises DeviceProcessError right after the unloads. -/
theorem ReleaseDeviceRes_teardown_order (env : Env) (s : Runtime) :
    ((∀ h d, (env.reply h (.rtSetDevice d)).ok = true) →
     (∀ h c, (env.reply h (.rtCtxSetCurrent c)).ok = true) →
     (∀ h p, (env.reply h (.rtStreamDestroy p)).ok = true) →
     (∀ h p, (env.reply h (.rtCtxDestroy p)).ok = true) →
      ∃ s1, ReleaseDeviceRes env s = .ret () s1 ∧ s1.trace = s.trace ++ teardownCalls s ∧
        s1.device_mem_base_ = 0 ∧ s1.device_mem_pool_base_ = 0 ∧ s1.stream_ = 0 ∧
        s1.rt_context_ = 0) ∧
    ((env.reply (s.trace ++ unloadCalls s.graph_model_id_map_)
        (.rtSetDevice s.context.device_id)).ok = false →
      ReleaseDeviceRes env s = .raised .DeviceProcessError { s with
        trace := s.trace ++ unloadCalls s.graph_model_id_map_ ++
          [.rtSetDevice s.context.device_id] }) := by
  constructor
  · intro hset hcur hsd hcd
    simp [ReleaseDeviceRes, bind_apply, ClearGraphModelMap_apply, getState_apply, call_apply,
      hset, FreeDeviceMemory_apply, DestroyHccl_apply, ResetDevice_apply env _ hcur hsd hcd,
      pure_apply, teardownCalls, freeCalls, hcclCalls, resetCalls]
  · intro hfail
    simp [ReleaseDeviceRes, bind_apply, ClearGraphModelMap_apply, getState_apply, call_apply,
      hfail, raise_apply]

/-- The teardown theorem at a live runtime with an oracle whose calls all succeed. -/
theorem ReleaseDeviceRes_teardown_order_witness :
    ∃ s1, ReleaseDeviceRes (sampleEnv true) sampleLive = .ret () s1 ∧
      s1.trace = sampleLive.trace ++ teardownCalls sampleLive ∧
      s1.device_mem_base_ = 0 ∧ s1.device_mem_pool_base_ = 0 ∧ s1.stream_ = 0 ∧
      s1.rt_context_ = 0 :=
  (ReleaseDeviceRes_teardown_order (sampleEnv true) sampleLive).1
    (fun _ _ => rfl) (fun _ _ => rfl) (fun _ _ => rfl) (fun _ _ => rfl)

/-! ## The invariant of the initialized flag -/

theorem wp_pure {α : Type} (a : α) (Q : α → Runtime → Prop) (R : Runtime → Prop) (s : Runtime) :
    wp (pure a) Q R s = Q a s := rfl

theorem wp_raise {α : Type} (e : Exn) (Q : α → Runtime → Prop) (R : Runtime → Prop)
    (s : Runtime) : wp (raise e) Q R s = R s := rfl

theorem wp_getState (Q : Runtime → Runtime → Prop) (R : Runtime → Prop) (s : Runtime) :
    wp getState Q R s = Q s s := rfl

theorem wp_modifyState (f : Runtime → Runtime) (Q : Unit → Runtime → Prop) (R : Runtime → Prop)
    (s : Runtime) : wp (modifyState f) Q R s = Q () (f s) := rfl

theorem wp_call (env : Env) (c : Call) (Q : Resp → Runtime → Prop) (R : Runtime → Prop)
    (s : Runtime) :
    wp (call env c) Q R s = Q (env.reply s.trace c) { s with trace := s.trace ++ [c] } := rfl

theorem wp_bind {α β : Type} (m : M α) (f : α → M β) (Q : β → Runtime → Prop)
    (R : Runtime → Prop) (s : Runtime) :
    wp (m >>= f) Q R s = wp m (fun a s1 => wp (f a) Q R s1) R s := by
  simp only [wp, bind_apply]
  cases m s <;> rfl

theorem wp_ite {α : Type} (c : Prop) [Decidable c] (m1 m2 : M α) (Q : α → Runtime → Prop)
    (R : Runtime → Prop) (s : Runtime) :
    wp (if c then m1 else m2) Q R s = if c then wp m1 Q R s else wp m2 Q R s := by
  split <;> rfl

theorem wp_state {α : Type} (m : M α) (P : Runtime → Prop) (s : Runtime) :
    wp m (fun _ s1 => P s1) P s ↔ P (m s).state := by
  simp only [wp, Outcome.state]
  cases m s <;> rfl

theorem wp_mono {α : Type} (m : M α) (Q Q2 : α → Runtime → Prop) (R R2 : Runtime → Prop)
    (s : Runtime) (h : wp m Q R s) (hQ : ∀ a t, Q a t → Q2 a t) (hR : ∀ t, R t → R2 t) :
    wp m Q2 R2 s := by
  unfold wp at *
  cases hm : m s with
  | ret a s1 => rw [hm] at h; exact hQ a s1 h
  | raised e s1 => rw [hm] at h; exact hR s1 h

theorem HcclInit_keepsHandles (env : Env) (s : Runtime) :
    keepsHandles s (HcclInit env s).state := by
  refine (wp_state _ (keepsHandles s) s).1 ?_
  unfold HcclInit
  repeat' first
    | simp only [wp_bind, wp_pure, wp_raise, wp_getState, wp_call, wp_ite, wp_modifyState]
    | split
  all_goals simp [keepsHandles]

theorem SyncStream_keepsHandles (env : Env) (s : Runtime) :
    keepsHandles s (SyncStream env s).state := by
  refine (wp_state _ (keepsHandles s) s).1 ?_
  unfold SyncStream
  repeat' first
    | simp only [wp_bind, wp_pure, wp_raise, wp_getState, wp_call, wp_ite, wp_modifyState]
    | split
  all_goals simp [keepsHandles]

theorem ClearGraphModelMap_keepsHandles (env : Env) (s : Runtime) :
    keepsHandles s (ClearGraphModelMap env s).state := by
  simp [ClearGraphModelMap_apply, Outcome.state, keepsHandles]

theorem DestroyHccl_keepsHandles (env : Env) (s : Runtime) :
    keepsHandles s (DestroyHccl env s).state := by
  simp [DestroyHccl_apply, Outcome.state, keepsHandles]

theorem GenTask_keepsHandles (env : Env) (graph : Option KernelGraph) (s : Runtime) :
    keepsHandles s (GenTask env graph s).state := by
  refine (wp_state _ (keepsHandles s) s).1 ?_
  unfold GenTask
  repeat' first
    | simp only [wp_bind, wp_pure, wp_raise, wp_getState, wp_call, wp_ite, wp_modifyState]
    | split
  all_goals simp [keepsHandles]

theorem LoadTask_keepsHandles (env : Env) (graph : Option KernelGraph) (s : Runtime) :
    keepsHandles s (LoadTask env graph s).state := by
  refine (wp_state _ (keepsHandles s) s).1 ?_
  unfold LoadTask GetGraphModelId
  repeat' first
    | simp only [wp_bind, wp_pure, wp_raise, wp_getState, wp_call, wp_ite, wp_modifyState]
    | split
  all_goals simp [keepsHandles]

theorem RunTask_keepsHandles (env : Env) (graph : Option KernelGraph) (s : Runtime) :
    keepsHandles s (RunTask env graph s).state := by
  refine (wp_state _ (keepsHandles s) s).1 ?_
  unfold RunTask GetGraphModelId
  repeat' first
    | simp only [wp_bind, wp_pure, wp_raise, wp_getState, wp_call, wp_ite, wp_modifyState]
    | split
  all_goals simp [keepsHandles]

theorem MallocOpMemory_keepsHandles (env : Env) (address : DeviceAddress) (size : Nat) (flag : Int)
    (s : Runtime) : keepsHandles s (MallocOpMemory env address size flag s).1.state := by
  have hs : keepsHandles s (MallocStaticMem env size false s).state := by
    refine (wp_state _ (keepsHandles s) s).1 ?_
    unfold MallocStaticMem
    repeat' first
      | simp only [wp_bind, wp_pure, wp_raise, wp_getState, wp_call, wp_ite, wp_modifyState]
      | split
    all_goals simp [keepsHandles]
  have hd : keepsHandles s (MallocDynamicMem env size false s).state := by
    refine (wp_state _ (keepsHandles s) s).1 ?_
    unfold MallocDynamicMem
    repeat' first
      | simp only [wp_bind, wp_pure, wp_raise, wp_getState, wp_call, wp_ite, wp_modifyState]
      | split
    all_goals simp [keepsHandles]
  unfold MallocOpMemory
  split
  · simp only [call_apply]
    split <;> simp [keepsHandles, Outcome.state]
  · split
    · cases hm : MallocStaticMem env size false s <;> rw [hm] at hs <;> exact hs
    · split
      · cases hm : MallocDynamicMem env size false s <;> rw [hm] at hd <;> exact hd
      · simp [keepsHandles, Outcome.state]

theorem dumpParametersLoop_keepsHandles (env : Env) (conf : DumpConf) (dump_path : List Char)
    (items : List AnfNode) (s : Runtime) :
    keepsHandles s (dumpParametersLoop env conf dump_path items s).state := by
  induction items generalizing s with
  | nil => simp [dumpParametersLoop, pure_apply, keepsHandles, Outcome.state]
  | cons item rest ih =>
    simp only [dumpParametersLoop, bind_apply, call_apply, ite_run]
    repeat' split
    all_goals exact ih _

theorem DumpParameters_keepsHandles (env : Env) (graph : Option KernelGraph)
    (dump_path : List Char) (dump_conf : Option DumpConf) (s : Runtime) :
    keepsHandles s (DumpParameters env graph dump_path dump_conf s).state := by
  unfold DumpParameters
  split
  · simp [keepsHandles, Outcome.state, raise_apply]
  · simp [keepsHandles, Outcome.state, raise_apply]
  · exact dumpParametersLoop_keepsHandles env _ dump_path _ s

theorem wp_HcclInit (env : Env) (Q : Bool → Runtime → Prop) (R : Runtime → Prop) (s : Runtime)
    (hQ : ∀ b t, keepsHandles s t → Q b t) (hR : ∀ t, keepsHandles s t → R t) :
    wp (HcclInit env) Q R s :=
  wp_mono _ _ _ _ _ s ((wp_state _ (keepsHandles s) s).2 (HcclInit_keepsHandles env s))
    (fun b t h => hQ b t h) hR

theorem InitDevice_spec (env : Env)
    (hctx : ∀ h d, (env.reply h (.rtCtxCreate d)).ok = true → (env.reply h (.rtCtxCreate d)).out ≠ 0)
    (hstream : ∀ h, (env.reply h .rtStreamCreate).ok = true → (env.reply h .rtStreamCreate).out ≠ 0)
    (s : Runtime) :
    wp (InitDevice env)
      (fun b t => t.initialized_ = s.initialized_ ∧
        (b = true → t.rt_context_ ≠ 0 ∧ t.stream_ ≠ 0))
      (fun t => t.initialized_ = s.initialized_) s := by
  unfold InitDevice
  repeat' first
    | simp only [wp_bind, wp_pure, wp_raise, wp_getState, wp_call, wp_ite, wp_modifyState]
    | split
    | (apply wp_HcclInit <;> intro)
  all_goals intros
  all_goals repeat' split
  all_goals simp_all [keepsHandles]

theorem MallocDeviceMemory_spec (env : Env)
    (hmalloc : ∀ h n, (env.reply h (.rtMalloc n)).ok = true → (env.reply h (.rtMalloc n)).out ≠ 0)
    (s : Runtime) :
    wp (MallocDeviceMemory env)
      (fun _ t => t.initialized_ = s.initialized_ ∧
        t.rt_context_ = s.rt_context_ ∧ t.stream_ = s.stream_ ∧ t.device_mem_base_ ≠ 0)
      (fun t => t.initialized_ = s.initialized_) s := by
  unfold MallocDeviceMemory
  repeat' first
    | simp only [wp_bind, wp_pure, wp_raise, wp_getState, wp_call, wp_ite, wp_modifyState]
    | split
  all_goals simp_all

theorem Init_handlesLive (env : Env)
    (hctx : ∀ h d, (env.reply h (.rtCtxCreate d)).ok = true → (env.reply h (.rtCtxCreate d)).out ≠ 0)
    (hstream : ∀ h, (env.reply h .rtStreamCreate).ok = true → (env.reply h .rtStreamCreate).out ≠ 0)
    (hmalloc : ∀ h n, (env.reply h (.rtMalloc n)).ok = true → (env.reply h (.rtMalloc n)).out ≠ 0)
    (s : Runtime) (hs : s.handlesLive) : (Init env s).state.handlesLive := by
  refine (wp_state _ Runtime.handlesLive s).1 ?_
  unfold Init
  simp only [wp_bind, wp_getState, wp_ite, wp_pure, wp_call, wp_modifyState, wp_raise]
  split
  · exact hs
  · rename_i hinit
    split <;>
    · refine wp_mono _ _ _ _ _ _ (InitDevice_spec env hctx hstream _) ?_ ?_
      · intro b t1 h1
        split
        · simp_all [Runtime.handlesLive]
        · refine wp_mono _ _ _ _ _ _ (MallocDeviceMemory_spec env hmalloc _) ?_ ?_
          · intro b2 t2 h2
            repeat' split
            all_goals simp_all [Runtime.handlesLive]
          · intro t2 h2
            simp_all [Runtime.handlesLive]
      · intro t1 h1
        simp_all [Runtime.handlesLive]

theorem keepsHandles_handlesLive (s t : Runtime) (h : keepsHandles s t) (hs : s.handlesLive) :
    t.handlesLive := by
  obtain ⟨h1, h2, h3, h4⟩ := h
  intro hi
  rw [h1] at hi
  rw [h2, h3, h4]
  exact hs hi

theorem runOp_handlesLive (env : Env)
    (hctx : ∀ h d, (env.reply h (.rtCtxCreate d)).ok = true → (env.reply h (.rtCtxCreate d)).out ≠ 0)
    (hstream : ∀ h, (env.reply h .rtStreamCreate).ok = true → (env.reply h .rtStreamCreate).out ≠ 0)
    (hmalloc : ∀ h n, (env.reply h (.rtMalloc n)).ok = true → (env.reply h (.rtMalloc n)).out ≠ 0)
    (op : Op) (hop : op.isTeardown = false) (s : Runtime) (hs : s.handlesLive) :
    (runOp env op s).handlesLive := by
  cases op with
  | Init => exact Init_handlesLive env hctx hstream hmalloc s hs
  | ReleaseDeviceRes => simp [Op.isTeardown] at hop
  | FreeDeviceMemory => simp [Op.isTeardown] at hop
  | ResetDevice => simp [Op.isTeardown] at hop
  | FreeHostMemory => exact hs
  | ClearGraphModelMap => exact keepsHandles_handlesLive _ _ (ClearGraphModelMap_keepsHandles env s) hs
  | DestroyHccl => exact keepsHandles_handlesLive _ _ (DestroyHccl_keepsHandles env s) hs
  | HcclInit => exact keepsHandles_handlesLive _ _ (HcclInit_keepsHandles env s) hs
  | SyncStream => exact keepsHandles_handlesLive _ _ (SyncStream_keepsHandles env s) hs
  | GenTask graph => exact keepsHandles_handlesLive _ _ (GenTask_keepsHandles env graph s) hs
  | LoadTask graph => exact keepsHandles_handlesLive _ _ (LoadTask_keepsHandles env graph s) hs
  | RunTask graph => exact keepsHandles_handlesLive _ _ (RunTask_keepsHandles env graph s) hs
  | MallocOpMemory address size flag =>
    exact keepsHandles_handlesLive _ _ (MallocOpMemory_keepsHandles env address size flag s) hs
  | DumpParameters graph dump_path dump_conf =>
    exact keepsHandles_handlesLive _ _ (DumpParameters_keepsHandles env graph dump_path dump_conf s) hs

/-- C4 as stated fails: with an oracle whose calls all succeed and yield the non-null handle 7,
a successful Init followed by FreeDeviceMemory, or by ReleaseDeviceRes, leaves the initialized
flag set while the main arena base pointer is null. -/
theorem initialized_flag_survives_teardown :
    (∀ h c, ((sampleEnv true).reply h c).ok = true → ((sampleEnv true).reply h c).out ≠ 0) ∧
    ¬ (runOps (sampleEnv true) [.Init, .FreeDeviceMemory]
        (Runtime.fresh (sampleContext true false false) 0)).handlesLive ∧
    ¬ (runOps (sampleEnv true) [.Init, .ReleaseDeviceRes]
        (Runtime.fresh (sampleContext true false false) 0)).handlesLive := by
  refine ⟨fun _ _ _ => (by decide : (7 : Nat) ≠ 0), fun h => ?_, fun h => ?_⟩
  · exact (h rfl).2.2 rfl
  · exact (h rfl).2.2 rfl

/-- C4, amended: in every state reached from a fresh runtime by a sequence of operations none
of which is a teardown operation (ReleaseDeviceRes, FreeDeviceMemory, ResetDevice), provided
every successful rtCtxCreate, rtStreamCreate and rtMalloc yields a non-null handle, a set
initialized flag implies that the runtime context, the default stream and the main arena base
pointer are non-null.  The state after an operation that raised counts as reached. -/
theorem initialized_implies_handles_without_teardown (env : Env)
    (hctx : ∀ h d, (env.reply h (.rtCtxCreate d)).ok = true → (env.reply h (.rtCtxCreate d)).out ≠ 0)
    (hstream : ∀ h, (env.reply h .rtStreamCreate).ok = true → (env.reply h .rtStreamCreate).out ≠ 0)
    (hmalloc : ∀ h n, (env.reply h (.rtMalloc n)).ok = true → (env.reply h (.rtMalloc n)).out ≠ 0)
    (context : MsContext) (device_id : Nat) (ops : List Op)
    (hops : ∀ op ∈ ops, op.isTeardown = false) :
    (runOps env ops (Runtime.fresh context device_id)).initialized_ = true →
      (runOps env ops (Runtime.fresh context device_id)).rt_context_ ≠ 0 ∧
      (runOps env ops (Runtime.fresh context device_id)).stream_ ≠ 0 ∧
      (runOps env ops (Runtime.fresh context device_id)).device_mem_base_ ≠ 0 := by
  have fresh_live : (Runtime.fresh context device_id).handlesLive := by
    intro h
    simp [Runtime.fresh] at h
  have step : ∀ (l : List Op) (s : Runtime), (∀ op ∈ l, op.isTeardown = false) →
      s.handlesLive → (runOps env l s).handlesLive := by
    intro l
    induction l with
    | nil => intro s _ hs; exact hs
    | cons op rest ih =>
      intro s hl hs
      exact ih (runOp env op s) (fun o ho => hl o (List.mem_cons_of_mem _ ho))
        (runOp_handlesLive env hctx hstream hmalloc op (hl op (List.mem_cons_self _ _)) s hs)
  exact step ops _ hops fresh_live

/-- The invariant theorem at a run that initializes the runtime and then drives the pipeline:
the flag is set at the end, and the handles are live. -/
theorem initialized_implies_handles_without_teardown_witness :
    (runOps (sampleEnv true) [.Init, .GenTask (some sampleGraph), .LoadTask (some sampleGraph),
        .RunTask (some sampleGraph), .SyncStream]
        (Runtime.fresh (sampleContext true false false) 0)).initialized_ = true ∧
    (runOps (sampleEnv true) [.Init, .GenTask (some sampleGraph), .LoadTask (some sampleGraph),
        .RunTask (some sampleGraph), .SyncStream]
        (Runtime.fresh (sampleContext true false false) 0)).rt_context_ ≠ 0 ∧
    (runOps (sampleEnv true) [.Init, .GenTask (some sampleGraph), .LoadTask (some sampleGraph),
        .RunTask (some sampleGraph), .SyncStream]
        (Runtime.fresh (sampleContext true false false) 0)).stream_ ≠ 0 ∧
    (runOps (sampleEnv true) [.Init, .GenTask (some sampleGraph), .LoadTask (some sampleGraph),
        .RunTask (some sampleGraph), .SyncStream]
        (Runtime.fresh (sampleContext true false false) 0)).device_mem_base_ ≠ 0 :=
  ⟨rfl, initialized_implies_handles_without_teardown (sampleEnv true)
    (fun _ _ _ => (by decide : (7 : Nat) ≠ 0)) (fun _ _ => (by decide : (7 : Nat) ≠ 0))
    (fun _ _ _ => (by decide : (7 : Nat) ≠ 0))
    (sampleContext true false false) 0 _ (by simp [Op.isTeardown]) rfl⟩

/-! ## The model cache -/

theorem mapFind_mapAssign_self {β : Type} (k : Nat) (v : β) (m : List (Nat × β)) :
    mapFind k (mapAssign k v m) = some v := by
  induction m with
  | nil => simp [mapAssign, mapFind]
  | cons e rest ih =>
    obtain ⟨k1, v1⟩ := e
    by_cases h : k1 = k <;> simp [mapAssign, mapFind, h, ih]

theorem mapFind_mapAssign_other {β : Type} (k k2 : Nat) (v : β) (m : List (Nat × β))
    (hk : k2 ≠ k) : mapFind k2 (mapAssign k v m) = mapFind k2 m := by
  induction m with
  | nil => simp [mapAssign, mapFind, Ne.symm hk]
  | cons e rest ih =>
    obtain ⟨k1, v1⟩ := e
    by_cases h : k1 = k
    · subst h
      simp [mapAssign, mapFind, Ne.symm hk]
    · by_cases h2 : k1 = k2
      · subst h2
        simp [mapAssign, mapFind, h]
      · simp [mapAssign, mapFind, h, h2, ih]

theorem mapFind_append_other {β : Type} (k k2 : Nat) (v : β) (m : List (Nat × β))
    (hk : k2 ≠ k) : mapFind k2 (m ++ [(k, v)]) = mapFind k2 m := by
  induction m with
  | nil => simp [mapFind, Ne.symm hk]
  | cons e rest ih =>
    obtain ⟨k1, v1⟩ := e
    by_cases h2 : k1 = k2 <;> simp [mapFind, h2, ih]

theorem mapFind_mapInsert_other {β : Type} (k k2 : Nat) (v : β) (m : List (Nat × β))
    (hk : k2 ≠ k) : mapFind k2 (mapInsert k v m) = mapFind k2 m := by
  unfold mapInsert
  split
  · rfl
  · exact mapFind_append_other k k2 v m hk

theorem mem_mapKeys_iff {β : Type} (k : Nat) (m : List (Nat × β)) :
    k ∈ mapKeys m ↔ ∃ v, mapFind k m = some v := by
  induction m with
  | nil => simp [mapKeys, mapFind]
  | cons e rest ih =>
    obtain ⟨k1, v1⟩ := e
    by_cases h : k1 = k
    · simp [mapKeys, mapFind, h]
    · have h2 : ¬ k = k1 := fun hh => h hh.symm
      simpa [mapKeys, mapFind, h, h2] using ih

theorem mem_mapKeys_mapAssign {β : Type} (k k2 : Nat) (v : β) (m : List (Nat × β)) :
    k2 ∈ mapKeys (mapAssign k v m) ↔ k2 = k ∨ k2 ∈ mapKeys m := by
  by_cases hk : k2 = k
  · subst hk
    simp [mem_mapKeys_iff, mapFind_mapAssign_self]
  · simp [mem_mapKeys_iff, mapFind_mapAssign_other k k2 v m hk, hk]

theorem mem_mapKeys_mapInsert {β : Type} (k k2 : Nat) (v : β) (m : List (Nat × β)) :
    k2 ∈ mapKeys (mapInsert k v m) ↔ k2 = k ∨ k2 ∈ mapKeys m := by
  unfold mapInsert
  split
  · rename_i w hw
    constructor
    · exact Or.inr
    · rintro (h | h)
      · subst h
        exact (mem_mapKeys_iff _ _).2 ⟨w, hw⟩
      · exact h
  · simp [mapKeys, or_comm]

theorem wp_returns {α : Type} (m : M α) (Q : α → Runtime → Prop) (s : Runtime)
    (h : wp m Q (fun _ => False) s) : ∃ a s1, m s = .ret a s1 ∧ Q a s1 := by
  unfold wp at h
  cases hm : m s with
  | ret a s1 => rw [hm] at h; exact ⟨a, s1, rfl, h⟩
  | raised e s1 => rw [hm] at h; exact h.elim

/-- C5: with task_sink enabled, GenTask of a non-null graph g returns true; afterwards g is a
key of the three maps, the model-id map sends g to its graph id, the entries of every other
graph are what they were, and if the three maps had equal key sets before they have equal key
sets after. -/
theorem GenTask_registers_graph (env : Env) (s : Runtime) (g : KernelGraph)
    (h : s.context.enable_task_sink = true) :
    ∃ s1, GenTask env (some g) s = .ret true s1 ∧
      g.addr ∈ mapKeys s1.graph_model_map_ ∧
      g.addr ∈ mapKeys s1.graph_model_id_map_ ∧
      g.addr ∈ mapKeys s1.task_map_ ∧
      mapFind g.addr s1.graph_model_id_map_ = some g.graph_id ∧
      (∀ k, k ≠ g.addr →
        mapFind k s1.graph_model_map_ = mapFind k s.graph_model_map_ ∧
        mapFind k s1.graph_model_id_map_ = mapFind k s.graph_model_id_map_ ∧
        mapFind k s1.task_map_ = mapFind k s.task_map_) ∧
      ((∀ k, k ∈ mapKeys s.graph_model_map_ ↔ k ∈ mapKeys s.graph_model_id_map_) →
       (∀ k, k ∈ mapKeys s.graph_model_id_map_ ↔ k ∈ mapKeys s.task_map_) →
        ∀ k, (k ∈ mapKeys s1.graph_model_map_ ↔ k ∈ mapKeys s1.graph_model_id_map_) ∧
          (k ∈ mapKeys s1.graph_model_id_map_ ↔ k ∈ mapKeys s1.task_map_)) := by
  have key : wp (GenTask env (some g)) (fun b s1 => b = true ∧
      (∃ model tasks, s1.graph_model_map_ = mapAssign g.addr model s.graph_model_map_ ∧
        s1.graph_model_id_map_ = mapAssign g.addr g.graph_id s.graph_model_id_map_ ∧
        s1.task_map_ = mapInsert g.addr tasks s.task_map_)) (fun _ => False) s := by
    unfold GenTask
    repeat' first
      | simp only [wp_bind, wp_pure, wp_raise, wp_getState, wp_call, wp_ite, wp_modifyState]
      | split
    all_goals first
      | exact ⟨trivial, _, _, rfl, trivial, rfl⟩
      | simp_all
  obtain ⟨b, s1, hrun, hb, model, tasks, h1, h2, h3⟩ := wp_returns _ _ _ key
  subst hb
  refine ⟨s1, hrun, ?_, ?_, ?_, ?_, ?_, ?_⟩
  · rw [h1]; exact (mem_mapKeys_mapAssign _ _ _ _).2 (Or.inl rfl)
  · rw [h2]; exact (mem_mapKeys_mapAssign _ _ _ _).2 (Or.inl rfl)
  · rw [h3]; exact (mem_mapKeys_mapInsert _ _ _ _).2 (Or.inl rfl)
  · rw [h2]; exact mapFind_mapAssign_self _ _ _
  · intro k hk
    rw [h1, h2, h3]
    exact ⟨mapFind_mapAssign_other _ _ _ _ hk, mapFind_mapAssign_other _ _ _ _ hk,
      mapFind_mapInsert_other _ _ _ _ hk⟩
  · intro e1 e2 k
    rw [h1, h2, h3]
    simp only [mem_mapKeys_mapAssign, mem_mapKeys_mapInsert, e1 k, e2 k, and_self]

/-- The cache theorem at a runtime whose cache is empty: GenTask of the sample graph puts it
into the three maps. -/
theorem GenTask_registers_graph_witness :
    ∃ s1, GenTask (sampleEnv true) (some sampleGraph)
        (Runtime.fresh (sampleContext true false false) 0) = .ret true s1 ∧
      sampleGraph.addr ∈ mapKeys s1.graph_model_map_ ∧
      sampleGraph.addr ∈ mapKeys s1.graph_model_id_map_ ∧
      sampleGraph.addr ∈ mapKeys s1.task_map_ ∧
      mapFind sampleGraph.addr s1.graph_model_id_map_ = some sampleGraph.graph_id := by
  obtain ⟨s1, h1, h2, h3, h4, h5, _⟩ := GenTask_registers_graph (sampleEnv true)
    (Runtime.fresh (sampleContext true false false) 0) sampleGraph rfl
  exact ⟨s1, h1, h2, h3, h4, h5⟩

/-! ## Collective communications -/

/-- C6: when the tensor subsystem handle is not open HcclInit raises.  When it is open:
HcclInit returns false and makes no external call if MINDSPORE_HCCL_CONFIG_PATH is unset, if
the path is longer than PATH_MAX or does not resolve, or if RANK_ID is unset; otherwise it calls
hcom_init once, on the resolved path and the rank, and returns whether that call succeeded. -/
theorem HcclInit_contract (env : Env) (s : Runtime) :
    (s.context.tsd_opened = false → HcclInit env s = .raised .Exception s) ∧
    (s.context.tsd_opened = true →
      (env.getenv "MINDSPORE_HCCL_CONFIG_PATH" = none ∨
        (∃ path, env.getenv "MINDSPORE_HCCL_CONFIG_PATH" = some path ∧
          (path.utf8ByteSize > env.PATH_MAX ∨ env.realpath path = none)) ∨
        env.getenv "RANK_ID" = none) →
      HcclInit env s = .ret false s) ∧
    (s.context.tsd_opened = true →
      ∀ path fullPath identify,
        env.getenv "MINDSPORE_HCCL_CONFIG_PATH" = some path →
        path.utf8ByteSize ≤ env.PATH_MAX →
        env.realpath path = some fullPath →
        env.getenv "RANK_ID" = some identify →
        HcclInit env s = .ret (env.reply s.trace (.hcom_init fullPath identify)).ok
          { s with trace := s.trace ++ [.hcom_init fullPath identify] }) := by
  refine ⟨?_, ?_, ?_⟩
  · intro h
    simp [HcclInit, bind_apply, getState_apply, h, raise_apply]
  · intro h hcase
    rcases hcase with h1 | ⟨path, h1, h2⟩ | h3
    · simp [HcclInit, bind_apply, getState_apply, h, pure_apply, h1]
    · rcases h2 with h2 | h2
      · simp [HcclInit, bind_apply, getState_apply, h, pure_apply, h1, h2]
      · by_cases hlen : path.utf8ByteSize > env.PATH_MAX
        · simp [HcclInit, bind_apply, getState_apply, h, pure_apply, h1, hlen]
        · simp [HcclInit, bind_apply, getState_apply, h, pure_apply, h1, hlen, h2]
    · cases h1 : env.getenv "MINDSPORE_HCCL_CONFIG_PATH" with
      | none => simp [HcclInit, bind_apply, getState_apply, h, pure_apply, h1]
      | some path =>
        by_cases hlen : path.utf8ByteSize > env.PATH_MAX
        · simp [HcclInit, bind_apply, getState_apply, h, pure_apply, h1, hlen]
        · cases h2 : env.realpath path with
          | none => simp [HcclInit, bind_apply, getState_apply, h, pure_apply, h1, hlen, h2]
          | some fullPath =>
            simp [HcclInit, bind_apply, getState_apply, h, pure_apply, h1, hlen, h2, h3]
  · intro h path fullPath identify h1 hlen h2 h3
    have hlen2 : ¬ path.utf8ByteSize > env.PATH_MAX := Nat.not_lt.mpr hlen
    cases hr : (env.reply s.trace (.hcom_init fullPath identify)).ok <;>
      simp [HcclInit, bind_apply, getState_apply, h, pure_apply, h1, hlen2, h2, h3, call_apply, hr]

/-- The comms contract at concrete environments: with the tensor subsystem closed HcclInit raises;
with the configuration path unset it returns false without a call; with both variables set and a
path that resolves it returns the library's result after one hcom_init. -/
theorem HcclInit_contract_witness :
    HcclInit (sampleEnv true)
        { (Runtime.fresh (sampleContext true true false) 0) with
          context := { sampleContext true true false with tsd_opened := false } }
      = .raised .Exception
        { (Runtime.fresh (sampleContext true true false) 0) with
          context := { sampleContext true true false with tsd_opened := false } } ∧
    HcclInit { sampleEnv true with getenv := fun _ => none }
        (Runtime.fresh (sampleContext true true false) 0)
      = .ret false (Runtime.fresh (sampleContext true true false) 0) ∧
    HcclInit (sampleEnv false) (Runtime.fresh (sampleContext true true false) 0)
      = .ret false { (Runtime.fresh (sampleContext true true false) 0) with
          trace := [.hcom_init "hccl.json" "hccl.json"] } ∧
    HcclInit (sampleEnv true) (Runtime.fresh (sampleContext true true false) 0)
      = .ret true { (Runtime.fresh (sampleContext true true false) 0) with
          trace := [.hcom_init "hccl.json" "hccl.json"] } :=
  ⟨(HcclInit_contract (sampleEnv true) _).1 rfl,
   (HcclInit_contract { sampleEnv true with getenv := fun _ => none } _).2.1 rfl (Or.inl rfl),
   (HcclInit_contract (sampleEnv false) _).2.2 rfl "hccl.json" "hccl.json" "hccl.json" rfl
     (by decide) rfl rfl,
   (HcclInit_contract (sampleEnv true) _).2.2 rfl "hccl.json" "hccl.json" "hccl.json" rfl
     (by decide) rfl rfl⟩

/-! ## Operator memory -/

/-- C7: with dynamic pooling enabled, whatever the flag, MallocOpMemory makes exactly one
external call, to the pool allocator, and raises exactly when the pool yields null; on a non-null
result the address points to it and is marked pooled.  With pooling disabled and distinct flavor
codes, the address points to the result of the static allocator for kStaticMem and of the dynamic
allocator for kDynamicMem, the allocator called being the only one called and moving its own
bump offset; every other flag raises without a call and leaves the address as it was; and the
pooled mark is never changed. -/
theorem MallocOpMemory_contract (env : Env) (address : DeviceAddress) (size : Nat) (flag : Int)
    (s : Runtime) (hne : env.kStaticMem ≠ env.kDynamicMem) :
    (s.context.enable_dynamic_mem_pool = true →
      (MallocOpMemory env address size flag s).1.state
        = { s with trace := s.trace ++ [.AllocTensorMem size] } ∧
      ((MallocOpMemory env address size flag s).1.isRaised = true ↔
        (env.reply s.trace (.AllocTensorMem size)).out = 0) ∧
      ((env.reply s.trace (.AllocTensorMem size)).out ≠ 0 →
        MallocOpMemory env address size flag s
          = (.ret () { s with trace := s.trace ++ [.AllocTensorMem size] },
             { address with ptr_ := (env.reply s.trace (.AllocTensorMem size)).out,
                            mem_dynamic_alloc_ := true })) ∧
      ((env.reply s.trace (.AllocTensorMem size)).out = 0 →
        MallocOpMemory env address size flag s
          = (.raised .Exception { s with trace := s.trace ++ [.AllocTensorMem size] }, address))) ∧
    (s.context.enable_dynamic_mem_pool = false →
      (flag = env.kStaticMem → (env.reply s.trace (.MallocStaticMem size false)).ok = true →
        MallocOpMemory env address size flag s
          = (.ret ()
              { s with
                static_mem_offset_ := (env.reply s.trace (.MallocStaticMem size false)).offset,
                trace := s.trace ++ [.MallocStaticMem size false] },
             { address with ptr_ := (env.reply s.trace (.MallocStaticMem size false)).out })) ∧
      (flag = env.kDynamicMem → (env.reply s.trace (.MallocDynamicMem size false)).ok = true →
        MallocOpMemory env address size flag s
          = (.ret ()
              { s with
                dynamic_mem_offset_ := (env.reply s.trace (.MallocDynamicMem size false)).offset,
                trace := s.trace ++ [.MallocDynamicMem size false] },
             { address with ptr_ := (env.reply s.trace (.MallocDynamicMem size false)).out })) ∧
      (flag ≠ env.kStaticMem → flag ≠ env.kDynamicMem →
        MallocOpMemory env address size flag s = (.raised .Exception s, address)) ∧
      (MallocOpMemory env address size flag s).2.mem_dynamic_alloc_
        = address.mem_dynamic_alloc_) := by
  constructor
  · intro hp
    by_cases h0 : (env.reply s.trace (.AllocTensorMem size)).out = 0 <;>
      simp [MallocOpMemory, hp, call_apply, h0, Outcome.state, Outcome.isRaised]
  · intro hp
    refine ⟨?_, ?_, ?_, ?_⟩
    · intro hf hok
      simp [MallocOpMemory, MallocStaticMem, bind_apply, call_apply, modifyState_apply,
        pure_apply, ite_run, hp, hf, hok]
    · intro hf hok
      have hf2 : ¬ env.kDynamicMem = env.kStaticMem := fun h => hne h.symm
      simp [MallocOpMemory, MallocDynamicMem, bind_apply, call_apply, modifyState_apply,
        pure_apply, ite_run, hp, hf, hf2, hok]
    · intro hf1 hf2
      simp [MallocOpMemory, hp, hf1, hf2]
    · unfold MallocOpMemory
      simp only [hp, call_apply]
      repeat' split
      all_goals simp_all

/-- The memory contract at concrete inputs: with pooling enabled and the flag 99 the address is
set to the pool result 7 and marked pooled; with pooling disabled the static flag yields the
static result and moves the static offset to 512, the dynamic flag yields the dynamic result
and moves the dynamic offset to 512, and the flag 99 raises, the address untouched. -/
theorem MallocOpMemory_contract_witness :
    MallocOpMemory (sampleEnv true) { ptr_ := 5, mem_dynamic_alloc_ := false } 64 99
        (Runtime.fresh (sampleContext true false true) 0)
      = (.ret () { (Runtime.fresh (sampleContext true false true) 0) with
            trace := [.AllocTensorMem 64] },
         { ptr_ := 7, mem_dynamic_alloc_ := true }) ∧
    MallocOpMemory bumpEnv { ptr_ := 5, mem_dynamic_alloc_ := false } 64 0
        (Runtime.fresh (sampleContext true false false) 0)
      = (.ret () { (Runtime.fresh (sampleContext true false false) 0) with
            static_mem_offset_ := 512, trace := [.MallocStaticMem 64 false] },
         { ptr_ := 9, mem_dynamic_alloc_ := false }) ∧
    MallocOpMemory bumpEnv { ptr_ := 5, mem_dynamic_alloc_ := false } 64 1
        (Runtime.fresh (sampleContext true false false) 0)
      = (.ret () { (Runtime.fresh (sampleContext true false false) 0) with
            dynamic_mem_offset_ := 512, trace := [.MallocDynamicMem 64 false] },
         { ptr_ := 9, mem_dynamic_alloc_ := false }) ∧
    MallocOpMemory (sampleEnv true) { ptr_ := 5, mem_dynamic_alloc_ := false } 64 99
        (Runtime.fresh (sampleContext true false false) 0)
      = (.raised .Exception (Runtime.fresh (sampleContext true false false) 0),
         { ptr_ := 5, mem_dynamic_alloc_ := false }) :=
  ⟨((MallocOpMemory_contract (sampleEnv true) _ 64 99 _ (by decide)).1 rfl).2.2.1 (by decide),
   ((MallocOpMemory_contract bumpEnv _ 64 0 _ (by decide)).2 rfl).1 rfl rfl,
   ((MallocOpMemory_contract bumpEnv _ 64 1 _ (by decide)).2 rfl).2.1 rfl rfl,
   ((MallocOpMemory_contract (sampleEnv true) _ 64 99 _ (by decide)).2 rfl).2.2.1
     (by decide) (by decide)⟩

/-! ## Destruction of comms -/

/-- C8 as stated fails: when comms are enabled and the library's destroy fails, DestroyHccl
returns false with the enable flag still set, NeedDestroyHccl then returns true, and a second
DestroyHccl calls destroy again. -/
theorem DestroyHccl_keeps_flag_when_destroy_fails :
    DestroyHccl (sampleEnv false) (Runtime.fresh (sampleContext true true false) 0)
      = .ret false { (Runtime.fresh (sampleContext true true false) 0) with
          trace := [.hcom_destroy] } ∧
    NeedDestroyHccl { (Runtime.fresh (sampleContext true true false) 0) with
          trace := [.hcom_destroy] }
      = .ret true { (Runtime.fresh (sampleContext true true false) 0) with
          trace := [.hcom_destroy] } ∧
    (DestroyHccl (sampleEnv false) { (Runtime.fresh (sampleContext true true false) 0) with
          trace := [.hcom_destroy] }).state.trace = [.hcom_destroy, .hcom_destroy] := by
  refine ⟨rfl, rfl, rfl⟩

/-- C8, amended: with the comms flag off DestroyHccl returns true and makes no call.  With the
flag on it calls the library's destroy exactly once; if that call succeeds it returns true with
the flag cleared, so that NeedDestroyHccl then returns false and a DestroyHccl that follows makes
no call; if that call fails it returns false and leaves the flag set. -/
theorem DestroyHccl_clears_flag_on_success (env : Env) (s : Runtime) :
    (s.context.enable_hccl = false → DestroyHccl env s = .ret true s) ∧
    (s.context.enable_hccl = true → (env.reply s.trace .hcom_destroy).ok = true →
      ∃ s1, DestroyHccl env s = .ret true s1 ∧
        s1 = { s with context := { s.context with enable_hccl := false },
                      trace := s.trace ++ [.hcom_destroy] } ∧
        NeedDestroyHccl s1 = .ret false s1 ∧
        DestroyHccl env s1 = .ret true s1) ∧
    (s.context.enable_hccl = true → (env.reply s.trace .hcom_destroy).ok = false →
      DestroyHccl env s = .ret false { s with trace := s.trace ++ [.hcom_destroy] }) := by
  refine ⟨?_, ?_, ?_⟩
  · intro h
    simp [DestroyHccl, NeedDestroyHccl, bind_apply, getState_apply, pure_apply, h]
  · intro h hok
    refine ⟨_, ?_, rfl, ?_, ?_⟩
    · simp [DestroyHccl, NeedDestroyHccl, bind_apply, getState_apply, pure_apply, h, hok,
        call_apply, modifyState_apply]
    · simp [NeedDestroyHccl, bind_apply, getState_apply, pure_apply]
    · simp [DestroyHccl, NeedDestroyHccl, bind_apply, getState_apply, pure_apply]
  · intro h hok
    simp [DestroyHccl, NeedDestroyHccl, bind_apply, getState_apply, pure_apply, h, hok,
      call_apply]

/-- The amended comms-destruction theorem at a runtime with comms enabled and a library whose
destroy succeeds: one call, flag cleared, and the next DestroyHccl makes no call. -/
theorem DestroyHccl_clears_flag_on_success_witness :
    ∃ s1, DestroyHccl (sampleEnv true) (Runtime.fresh (sampleContext true true false) 0)
        = .ret true s1 ∧
      s1 = { (Runtime.fresh (sampleContext true true false) 0) with
        context := { sampleContext true true false with enable_hccl := false },
        trace := [.hcom_destroy] } ∧
      NeedDestroyHccl s1 = .ret false s1 ∧
      DestroyHccl (sampleEnv true) s1 = .ret true s1 :=
  (DestroyHccl_clears_flag_on_success (sampleEnv true)
    (Runtime.fresh (sampleContext true true false) 0)).2.1 rfl rfl

/-! ## Idempotent initialization -/

theorem wp_trivial {α : Type} (m : M α) (s : Runtime) :
    wp m (fun _ _ => True) (fun _ => True) s := by
  unfold wp
  cases m s <;> trivial

theorem Init_true_initialized (env : Env) (s s1 : Runtime) (h : Init env s = .ret true s1) :
    s1.initialized_ = true := by
  have key : wp (Init env) (fun b t => b = true → t.initialized_ = true) (fun _ => True) s := by
    unfold Init
    simp only [wp_bind, wp_getState, wp_ite, wp_pure, wp_call, wp_modifyState, wp_raise]
    split
    · intro _; assumption
    · split <;>
      · refine wp_mono _ _ _ _ _ _ (wp_trivial (InitDevice env) _) ?_ ?_
        · intro b t1 _
          split
          · simp_all
          · refine wp_mono _ _ _ _ _ _ (wp_trivial (MallocDeviceMemory env) _) ?_ ?_
            · intro b2 t2 _
              repeat' split
              all_goals simp_all
            · intro _ _; trivial
        · intro _ _; trivial
  unfold wp at key
  rw [h] at key
  exact key rfl

/-- C9: on an initialized runtime Init returns true and leaves the state as it was, the trace
of external calls included, so no driver, collective-library, allocation or profiling function
is invoked; and the state a successful Init returns is initialized, so a second Init does so. -/
theorem Init_idempotent (env : Env) (s : Runtime) :
    (s.initialized_ = true → Init env s = .ret true s) ∧
    (∀ env0 s0, Init env0 s0 = .ret true s → Init env s = .ret true s) := by
  have first : s.initialized_ = true → Init env s = .ret true s := by
    intro h
    simp [Init, bind_apply, getState_apply, pure_apply, h]
  exact ⟨first, fun env0 s0 h0 => first (Init_true_initialized env0 s0 s h0)⟩

/-- The idempotence theorem at a fresh runtime: a first Init succeeds with eleven external calls,
and a second Init, even with an oracle whose calls all fail, returns true and changes nothing. -/
theorem Init_idempotent_witness :
    ∃ s1, Init (sampleEnv true) (Runtime.fresh (sampleContext true true true) 0) = .ret true s1 ∧
      s1.trace.length = 11 ∧
      Init (sampleEnv false) s1 = .ret true s1 :=
  ⟨_, rfl, rfl, (Init_idempotent (sampleEnv false) _).2 (sampleEnv true)
    (Runtime.fresh (sampleContext true true true) 0) rfl⟩

/-! ## The dump hook -/

/-- DumpParameters does not rewrite the parameter name.  C10 (code defect): for the sample
graph, whose parameter is named a/b and whose operator is named D/c, with the dump directory d,
DumpParameters writes to d/a/b_output_0, while the rewriting DumpOutput applies turns a/b into
a--b, and DumpOutput itself writes the operator to d/D--c_output_0. -/
theorem DumpParameters_keeps_slash_in_name :
    DumpParameters (sampleEnv true) (some sampleGraph) ['d'] (some sampleDumpConf)
        (Runtime.fresh (sampleContext true false false) 0)
      = .ret () { (Runtime.fresh (sampleContext true false false) 0) with
          trace := [.DumpMemToFile false "d/a/b_output_0".toList] } ∧
    fileKernelName 4 "a/b".toList = some "a--b".toList ∧
    "d/a/b_output_0".toList ≠ "d".toList ++ ['/'] ++ "a--b".toList ++ "_output_0".toList ∧
    '/' ∈ "a/b_output_0".toList ∧
    DumpOutput (sampleEnv true) 4 (some sampleGraph) ['d'] (some sampleDumpConf)
        (Runtime.fresh (sampleContext true false false) 0)
      = some (.ret () { (Runtime.fresh (sampleContext true false false) 0) with
          trace := [.DumpMemToFile false "d/D--c_output_0".toList] }) := by
  refine ⟨rfl, rfl, by decide, by decide, rfl⟩

/-! ## The rewriting of operator names -/

theorem findFrom_slash_cons (c : Char) (cs : List Char) (i : Nat) :
    findFrom ['/'] (c :: cs) i = if c = '/' then some i else findFrom ['/'] cs (i + 1) := by
  by_cases h : c = '/'
  · subst h
    simp [findFrom, List.isPrefixOf]
  · have h2 : ¬ '/' = c := fun hh => h hh.symm
    simp [findFrom, List.isPrefixOf, h, h2]

theorem strFind_at_char (pre cs : List Char) (c : Char) :
    strFind (pre ++ c :: cs) ['/'] pre.length
      = if c = '/' then some pre.length else strFind (pre ++ c :: cs) ['/'] (pre.length + 1) := by
  have h1 : (pre ++ c :: cs).drop (pre.length + 1) = cs := by
    have : pre ++ c :: cs = (pre ++ [c]) ++ cs := by simp
    rw [this]
    exact List.drop_left' (by simp)
  simp [strFind, findFrom_slash_cons, h1]

theorem strFind_at_end (pre : List Char) : strFind pre ['/'] pre.length = none := by
  simp [strFind, findFrom]

theorem strReplace_at_slash (pre cs : List Char) :
    strReplace (pre ++ '/' :: cs) pre.length 1 ['-', '-'] = (pre ++ ['-', '-']) ++ cs := by
  have h1 : (pre ++ '/' :: cs).drop (pre.length + 1) = cs := by
    have : pre ++ '/' :: cs = (pre ++ ['/']) ++ cs := by simp
    rw [this]
    exact List.drop_left' (by simp)
  simp [strReplace, h1]

theorem replaceLoop_from (rest : List Char) :
    ∀ (fuel : Nat) (pre : List Char), rest.count '/' < fuel →
      replaceLoop ['/'] ['-', '-'] fuel (pre ++ rest) pre.length = some (pre ++ replaceSlash rest) := by
  induction rest with
  | nil =>
    intro fuel pre h
    cases fuel with
    | zero => simp at h
    | succ f => simp [replaceLoop, strFind_at_end, replaceSlash]
  | cons c cs ih =>
    intro fuel pre h
    cases fuel with
    | zero => simp at h
    | succ f =>
      by_cases hc : c = '/'
      · subst hc
        have hcount : cs.count '/' < f := by simpa using h
        have step := ih f (pre ++ ['-', '-']) hcount
        simp only [List.length_append, List.length_cons, List.length_nil] at step
        simp only [replaceLoop, strFind_at_char, if_true, List.length_cons, List.length_nil]
        rw [strReplace_at_slash]
        simpa [replaceSlash] using step
      · have hcount : cs.count '/' < f + 1 := by
          have h2 : ¬ '/' = c := fun hh => hc hh.symm
          simpa [List.count_cons, h2] using h
        have step := ih (f + 1) (pre ++ [c]) hcount
        have e : pre ++ [c] ++ cs = pre ++ c :: cs := by simp
        rw [e] at step
        simp only [List.length_append, List.length_cons, List.length_nil] at step
        simp only [replaceLoop, strFind_at_char, hc, if_false] at step ⊢
        simpa [replaceSlash, hc] using step

theorem replaceSlash_no_slash (s : List Char) : '/' ∉ replaceSlash s := by
  induction s with
  | nil => simp [replaceSlash]
  | cons c cs ih =>
    by_cases hc : c = '/'
    · simp [replaceSlash, hc, ih]
    · have h2 : ¬ '/' = c := fun hh => hc hh.symm
      simp [replaceSlash, hc, h2, ih]

theorem replaceSlash_length (s : List Char) :
    (replaceSlash s).length = s.length + s.count '/' := by
  induction s with
  | nil => simp [replaceSlash]
  | cons c cs ih =>
    by_cases hc : c = '/'
    · subst hc
      simp [replaceSlash, ih]
      omega
    · have h2 : ¬ '/' = c := fun hh => hc hh.symm
      simp [replaceSlash, hc, List.count_cons, h2, ih]
      omega

theorem replaceSlash_of_no_slash (s : List Char) (h : '/' ∉ s) : replaceSlash s = s := by
  induction s with
  | nil => simp [replaceSlash]
  | cons c cs ih =>
    have hc : ¬ c = '/' := fun hh => h (by simp [hh])
    have hcs : '/' ∉ cs := fun hh => h (List.mem_cons_of_mem _ hh)
    simp [replaceSlash, hc, ih hcs]

theorem fileKernelName_apply (fuel : Nat) (s : List Char) (h : s.count '/' < fuel) :
    fileKernelName fuel s = some (replaceSlash s) :=
  replaceLoop_from s fuel [] h

theorem dumpNodeOutputs_apply (env : Env) (trans_flag : Bool) (dump_path kernel_name : List Char)
    (n : Nat) : ∀ (j : Nat) (s : Runtime),
    dumpNodeOutputs env trans_flag dump_path kernel_name n j s
      = .ret () { s with trace := s.trace ++ (List.range' j n).map fun i =>
          Call.DumpMemToFile trans_flag (outputFilePath dump_path kernel_name i) } := by
  induction n with
  | zero =>
    intro j s
    simp [dumpNodeOutputs, pure_apply]
  | succ n ih =>
    intro j s
    simp [dumpNodeOutputs, bind_apply, call_apply, ih, List.range'_succ, outputFilePath]

theorem dumpOutputLoop_apply (env : Env) (fuel : Nat) (dump_conf : DumpConf)
    (dump_path : List Char) (nodes : List CNode) :
    ∀ s : Runtime, (∀ node ∈ nodes, node.fullname_with_scope.count '/' < fuel) →
      dumpOutputLoop env fuel dump_conf dump_path nodes s
        = some (.ret () { s with
            trace := s.trace ++ dumpOutputCalls dump_conf dump_path nodes }) := by
  induction nodes with
  | nil =>
    intro s _
    simp [dumpOutputLoop, dumpOutputCalls]
  | cons node rest ih =>
    intro s h
    have hnode := h node (List.mem_cons_self _ _)
    have hrest : ∀ n ∈ rest, n.fullname_with_scope.count '/' < fuel :=
      fun n hn => h n (List.mem_cons_of_mem _ hn)
    by_cases hsel : dump_conf.IsKernelNeedDump node.fullname_with_scope = true
    · simp [dumpOutputLoop, dumpOutputCalls, hsel, fileKernelName_apply fuel _ hnode,
        dumpNodeOutputs_apply, ih _ hrest, List.range_eq_range']
    · simp [dumpOutputLoop, dumpOutputCalls, hsel, ih _ hrest]

/-- C11: for every operator name s the rewriting loop of DumpOutput ends, within any number of
iterations above the number of slashes of s and so within the length of s plus one, and yields
s with every slash replaced by two dashes and every other character kept in order; the result
holds no slash, its length is the length of s plus the number of slashes of s, and it is s when
s holds no slash.  DumpOutput then writes, for every selected operator and every output index
i, the file named dump_path, slash, rewritten name, _output_, i. -/
theorem fileKernelName_replaces_every_slash (s : List Char) :
    (∀ fuel, s.count '/' < fuel → fileKernelName fuel s = some (replaceSlash s)) ∧
    fileKernelName (s.length + 1) s = some (replaceSlash s) ∧
    '/' ∉ replaceSlash s ∧
    (replaceSlash s).length = s.length + s.count '/' ∧
    ('/' ∉ s → replaceSlash s = s) ∧
    (∀ (env : Env) (fuel n : Nat) (dump_conf : DumpConf) (dump_path : List Char) (st : Runtime)
        (g : KernelGraph),
      g.execution_order = [{ fullname_with_scope := s, output_num := n }] →
      s.count '/' < fuel → dump_conf.IsKernelNeedDump s = true →
      DumpOutput env fuel (some g) dump_path (some dump_conf) st
        = some (.ret ()
          { st with
            trace := st.trace ++ (List.range n).map fun i =>
              Call.DumpMemToFile dump_conf.trans_flag
                (dump_path ++ ['/'] ++ replaceSlash s ++
                  ['_', 'o', 'u', 't', 'p', 'u', 't', '_'] ++ to_string i) })) := by
  refine ⟨fun fuel h => fileKernelName_apply fuel s h, ?_, replaceSlash_no_slash s,
    replaceSlash_length s, replaceSlash_of_no_slash s, ?_⟩
  · exact fileKernelName_apply _ s (Nat.lt_succ_of_le (List.count_le_length _ _))
  · intro env fuel n dump_conf dump_path st g hg hfuel hsel
    have h := dumpOutputLoop_apply env fuel dump_conf dump_path
      [{ fullname_with_scope := s, output_num := n }] st (by simpa using hfuel)
    simp only [DumpOutput, hg]
    rw [h]
    simp [dumpOutputCalls, hsel, outputFilePath]

/-- The rewriting theorem at the name Default/network/conv1: three iterations suffice, the
result is Default--network--conv1, and for an operator of that name with two outputs DumpOutput
writes the files d/Default--network--conv1_output_0 and d/Default--network--conv1_output_1. -/
theorem fileKernelName_replaces_every_slash_witness :
    fileKernelName 3 "Default/network/conv1".toList = some "Default--network--conv1".toList ∧
    DumpOutput (sampleEnv true) 3 (some sampleNetGraph) ['d'] (some sampleDumpConf)
        (Runtime.fresh (sampleContext true false false) 0)
      = some (.ret () { (Runtime.fresh (sampleContext true false false) 0) with
          trace := [.DumpMemToFile false "d/Default--network--conv1_output_0".toList,
                    .DumpMemToFile false "d/Default--network--conv1_output_1".toList] }) :=
  ⟨(fileKernelName_replaces_every_slash "Default/network/conv1".toList).1 3 (by decide),
   (fileKernelName_replaces_every_slash "Default/network/conv1".toList).2.2.2.2.2
     (sampleEnv true) 3 2 sampleDumpConf ['d'] (Runtime.fresh (sampleContext true false false) 0)
     sampleNetGraph rfl (by decide) rfl⟩

end AscendKernelRuntime
